import Mathlib

/-!
Shallow embedding of `src/backend/ecommerce/schema.py` (gsc2001/E-commerce).

The GraphQL layer is embedded as pure functions over an explicit `State`
holding products, cart lines, orders, addresses and appointments.  Django's
per-save persistence (no enclosing transaction) is modelled by threading the
state through each statement of a mutation, so an exception raised midway
returns the partially mutated state, exactly as the non-transactional source
does.  Machine integers are modelled as `Int` (Python integers are unbounded),
and `math.ceil` over Python's exact division is modelled as `Int.ceil` on `ℚ`.
-/

/-! ## Data model (from `models.py` usage in `schema.py`) -/

abbrev UserId := Nat
abbrev ProductId := Nat
abbrev AddressId := Nat

/-- A catalog product: `Product` model (name, kind, price, discount, stock). -/
structure Product where
  name : String
  kind : String
  price : Int
  discount : Int
  stock : Int
deriving DecidableEq

/-- A cart line: `CartObj` row, the (user, product) → qty association. -/
structure CartLine where
  user : UserId
  productId : ProductId
  qty : Int
deriving DecidableEq

/-- An order line: `OrderObj` row (through-model of `Order.product_objects`),
holding the quantity and the unit price captured at order time. -/
structure OrderLine where
  productId : ProductId
  qty : Int
  price : Int
deriving DecidableEq

/-- The shipping fields copied from an `Address` into an `Order` at creation. -/
structure AddressData where
  name : String
  phone : String
  address1 : String
  address2 : String
  pincode : Int
  city : String
  state : String
  country : String
deriving DecidableEq

/-- An `Order` row: owner, denormalized shipping snapshot and its lines. -/
structure Order where
  id : Nat
  user : UserId
  shipping : AddressData
  lines : List OrderLine
deriving DecidableEq

/-- An `Address` row. -/
structure Address where
  id : AddressId
  user : UserId
  data : AddressData
deriving DecidableEq

/-- A timezone-free timestamp, split into its calendar date and time of day
(both abstract counters); `timestamp.date()` is the `date` component. -/
structure DateTime where
  date : Nat
  time : Nat
deriving DecidableEq

/-- Strict order on timestamps, used by `timestamp__gt` lookups. -/
def dtLt (a b : DateTime) : Prop :=
  a.date < b.date ∨ (a.date = b.date ∧ a.time < b.time)

instance (a b : DateTime) : Decidable (dtLt a b) := by
  unfold dtLt; exact inferInstance

/-- An `Appointment` row: owner and timestamp. -/
structure Appointment where
  user : UserId
  timestamp : DateTime
deriving DecidableEq

/-- The database state touched by the mutations under verification.
Reviews, likes and user-profile fields are not referenced by any property
considered here; the mutations acting on them read or write none of the
entities below. -/
structure State where
  products : List (ProductId × Product)
  cart : List CartLine
  orders : List Order
  addresses : List Address
  appointments : List Appointment
  nextOrderId : Nat
deriving DecidableEq

/-- Errors surfaced to the caller: Django's `DoesNotExist` from `.get(pk=...)`
and `raise Exception(msg)`. -/
inductive Err where
  | notFound
  | appError (msg : String)
deriving DecidableEq

instance {ε α : Type} [DecidableEq ε] [DecidableEq α] : DecidableEq (Except ε α) :=
  fun x y =>
    match x, y with
    | .ok a, .ok b =>
      if h : a = b then isTrue (by rw [h]) else isFalse (fun hh => h (Except.ok.inj hh))
    | .error a, .error b =>
      if h : a = b then isTrue (by rw [h]) else isFalse (fun hh => h (Except.error.inj hh))
    | .ok _, .error _ => isFalse (fun hh => Except.noConfusion hh)
    | .error _, .ok _ => isFalse (fun hh => Except.noConfusion hh)

/-! ## Lookups and point updates -/

/-- `Product.objects.get(pk=pid)` (first row with that key, `none` if absent). -/
def lookupProduct (s : State) (pid : ProductId) : Option Product :=
  (s.products.find? (fun pr => pr.1 == pid)).map (fun pr => pr.2)

/-- `Address.objects.get(pk=aid)`. -/
def lookupAddress (s : State) (aid : AddressId) : Option Address :=
  s.addresses.find? (fun a => a.id == aid)

/-- `product.stock = v; product.save()` for the product with key `pid`. -/
def setStock (s : State) (pid : ProductId) (v : Int) : State :=
  { s with products :=
      s.products.map (fun pr =>
        if pr.1 == pid then (pr.1, { pr.2 with stock := v }) else pr) }

/-- `CartObj.objects.get(user=uid, product_id=pid)`. -/
def findCartLine (s : State) (uid : UserId) (pid : ProductId) : Option CartLine :=
  s.cart.find? (fun cl => cl.user == uid && cl.productId == pid)

/-- `_cart_obj.qty = v; _cart_obj.save()` for the (uid, pid) cart line. -/
def setCartQty (s : State) (uid : UserId) (pid : ProductId) (v : Int) : State :=
  { s with cart :=
      s.cart.map (fun cl =>
        if cl.user == uid && cl.productId == pid then { cl with qty := v } else cl) }

/-- `cart_obj.delete()` / `user.cart.remove(product_id)`. -/
def removeCartLine (s : State) (uid : UserId) (pid : ProductId) : State :=
  { s with cart :=
      s.cart.filter (fun cl => !(cl.user == uid && cl.productId == pid)) }

/-- `CartObj.objects.filter(user=user)`: the user's cart, in storage order. -/
def userCart (s : State) (uid : UserId) : List CartLine :=
  s.cart.filter (fun cl => cl.user == uid)

/-! ## Catalog reader (`Query.resolve_products`, schema.py 143–160) -/

/-- `needle.isPrefixOf hay` on character lists. -/
def hasPref : List Char → List Char → Bool
  | [], _ => true
  | _ :: _, [] => false
  | c :: cs, d :: ds => c == d && hasPref cs ds

/-- `needle` occurs as a contiguous run inside `hay`. -/
def hasSub (needle : List Char) : List Char → Bool
  | [] => needle.isEmpty
  | c :: cs => hasPref needle (c :: cs) || hasSub needle cs

/-- ASCII lower-casing of one character (`str.lower()` on the ASCII range). -/
def lowerChar (c : Char) : Char :=
  if 65 ≤ c.toNat ∧ c.toNat ≤ 90 then Char.ofNat (c.toNat + 32) else c

/-- Django's `name__icontains=search`: case-insensitive containment. -/
def icontains (name search : String) : Bool :=
  hasSub (search.data.map lowerChar) (name.data.map lowerChar)

/-- `if search: qs = qs.filter(Q(name__icontains=search))` — Python truthiness:
an absent or empty string leaves the filter out. -/
def applySearch (search : Option String) (qs : List Product) : List Product :=
  match search with
  | some srch => if srch ≠ "" then qs.filter (fun p => icontains p.name srch) else qs
  | none => qs

/-- `if kind: qs = qs.filter(Q(kind=kind))`. -/
def applyKind (kind : Option String) (qs : List Product) : List Product :=
  match kind with
  | some k => if k ≠ "" then qs.filter (fun p => decide (p.kind = k)) else qs
  | none => qs

/-- `if skip: qs = qs[skip:]` — a zero `skip` leaves the slice out. -/
def applySkip (skip : Option Nat) (qs : List Product) : List Product :=
  match skip with
  | some n => if n ≠ 0 then qs.drop n else qs
  | none => qs

/-- `if first: qs = qs[:first]` — a zero `first` leaves the cap out. -/
def applyFirst (first : Option Nat) (qs : List Product) : List Product :=
  match first with
  | some n => if n ≠ 0 then qs.take n else qs
  | none => qs

/-- `Query.resolve_products`: the four `if arg:` stages in source order.
`qs[skip:]` and `qs[:first]` are `drop`/`take` (the claims under verification
restrict `skip`/`first` to non-negative values, so Python's negative-index
slicing does not arise). -/
def resolve_products (ps : List Product)
    (first skip : Option Nat) (search kind : Option String) : List Product :=
  applyFirst first (applySkip skip (applyKind kind (applySearch search ps)))

/-! ## Booked dates (`Query.resolve_booked_dates`, schema.py 133–138) -/

/-- `Appointment.objects.filter(timestamp__gt=now)` mapped to timestamps. -/
def bookedDates (s : State) (now : DateTime) : List DateTime :=
  (s.appointments.filter (fun a => decide (dtLt now a.timestamp))).map
    (fun a => a.timestamp)

/-! ## Cart manager (`SetCart.mutate`, schema.py 514–533) -/

/-- `SetCart.mutate`: on an existing line, `add` accumulates the delta,
otherwise a positive qty overwrites and a non-positive qty removes the line;
with no existing line a line is created only for positive qty.  Returns the
user's full cart after the mutation. -/
def setCart (s : State) (uid : UserId) (pid : ProductId) (qty : Int) (add : Bool) :
    State × List CartLine :=
  let s' :=
    match findCartLine s uid pid with
    | some cl =>
      if add then setCartQty s uid pid (cl.qty + qty)
      else if qty > 0 then setCartQty s uid pid qty
      else removeCartLine s uid pid
    | none =>
      if qty > 0 then { s with cart := s.cart ++ [⟨uid, pid, qty⟩] } else s
  (s', userCart s' uid)

/-! ## Order workflow (schema.py 381–504) -/

/-- The captured unit price:
`math.ceil(product.price - (product.discount * product.price) / 100)`. -/
def linePrice (p : Product) : Int :=
  Int.ceil ((p.price : ℚ) - ((p.discount : ℚ) * (p.price : ℚ)) / 100)

/-- `Order.objects.create(user=..., **address fields)`: the `Order` row is
persisted immediately, before any stock is examined. -/
def mkOrder (s : State) (uid : UserId) (ad : Address) : State :=
  { s with
    orders := s.orders ++ [⟨s.nextOrderId, uid, ad.data, []⟩],
    nextOrderId := s.nextOrderId + 1 }

/-- `order.product_objects.add(pid, through_defaults={qty, price})`. -/
def appendOrderLine (s : State) (oid : Nat) (ol : OrderLine) : State :=
  { s with orders :=
      s.orders.map (fun o =>
        if o.id == oid then { o with lines := o.lines ++ [ol] } else o) }

/-- One iteration of the `for cart_obj in cart:` loop of `OrderCart.mutate`:
stock check, decrement-and-save, order-line append, cart-line delete.  A raise
returns the state unchanged by this iteration. -/
def processOne (s : State) (oid : Nat) (cl : CartLine) : State × Option Err :=
  match lookupProduct s cl.productId with
  | none => (s, some Err.notFound)
  | some p =>
    if p.stock < cl.qty then (s, some (Err.appError "Stock Error"))
    else
      let s1 := setStock s cl.productId (p.stock - cl.qty)
      let s2 := appendOrderLine s1 oid ⟨cl.productId, cl.qty, linePrice p⟩
      let s3 := removeCartLine s2 cl.user cl.productId
      (s3, none)

/-- The whole loop: each line commits its mutations before the next is
examined; a raise propagates the partially mutated state. -/
def processCart (oid : Nat) : State → List CartLine → State × Option Err
  | s, [] => (s, none)
  | s, cl :: rest =>
    match processOne s oid cl with
    | (s1, none) => processCart oid s1 rest
    | (s1, some e) => (s1, some e)

/-- `OrderCart.mutate` (schema.py 387–443): address lookup, order creation,
then the per-line loop over the user's cart.  The notification dispatch is a
fire-and-forget side effect touching no modelled entity and is omitted. -/
def orderCart (s : State) (uid : UserId) (aid : AddressId) :
    State × Except Err Nat :=
  match lookupAddress s aid with
  | none => (s, Except.error Err.notFound)
  | some ad =>
    let s0 := mkOrder s uid ad
    match processCart s.nextOrderId s0 (userCart s0 uid) with
    | (s1, none) => (s1, Except.ok s.nextOrderId)
    | (s1, some e) => (s1, Except.error e)

/-- `OrderProduct.mutate` (schema.py 446–504): same address/order creation,
then one stock check, decrement and order-line append for the given product;
the cart is never read or written. -/
def orderProduct (s : State) (uid : UserId) (aid : AddressId)
    (pid : ProductId) (qty : Int) : State × Except Err Nat :=
  match lookupAddress s aid with
  | none => (s, Except.error Err.notFound)
  | some ad =>
    let s0 := mkOrder s uid ad
    match lookupProduct s0 pid with
    | none => (s0, Except.error Err.notFound)
    | some p =>
      if p.stock < qty then (s0, Except.error (Err.appError "Stock Error"))
      else
        let s1 := setStock s0 pid (p.stock - qty)
        let s2 := appendOrderLine s1 s.nextOrderId ⟨pid, qty, linePrice p⟩
        (s2, Except.ok s.nextOrderId)

/-! ## Appointment scheduler (`BookAppointment.mutate`, schema.py 536–582) -/

/-- `BookAppointment.mutate`: reject when any appointment (by any user) shares
the calendar date (`timestamp__startswith=timestamp.date()`), else persist.
The confirmation emails touch no modelled entity and are omitted. -/
def bookAppointment (s : State) (uid : UserId) (ts : DateTime) :
    State × Except Err Appointment :=
  if (s.appointments.filter (fun a => a.timestamp.date == ts.date)).length > 0 then
    (s, Except.error (Err.appError "No slot on that day!"))
  else
    ({ s with appointments := s.appointments ++ [⟨uid, ts⟩] },
     Except.ok ⟨uid, ts⟩)

/-! ## Reachable states -/

/-- One API mutation.  `createAddress` models `CreateAddress.mutate` (fresh
primary key), `deleteAddress` models `DeleteAddress.mutate`; the remaining
mutations of the schema (users, reviews, likes, profile updates) read and
write none of the modelled entities except that `UpdateSelf.mutate` upserts
address fields, which no property below depends on. -/
inductive Step : State → State → Prop where
  | setCartStep (s : State) (uid : UserId) (pid : ProductId) (qty : Int) (add : Bool) :
      Step s (setCart s uid pid qty add).1
  | orderCartStep (s : State) (uid : UserId) (aid : AddressId) :
      Step s (orderCart s uid aid).1
  | orderProductStep (s : State) (uid : UserId) (aid : AddressId)
      (pid : ProductId) (qty : Int) :
      Step s (orderProduct s uid aid pid qty).1
  | bookStep (s : State) (uid : UserId) (ts : DateTime) :
      Step s (bookAppointment s uid ts).1
  | createAddressStep (s : State) (a : Address) :
      lookupAddress s a.id = none →
      Step s { s with addresses := s.addresses ++ [a] }
  | deleteAddressStep (s : State) (aid : AddressId) :
      Step s { s with addresses := s.addresses.filter (fun a => !(a.id == aid)) }

/-- Zero or more mutations. -/
inductive Steps : State → State → Prop where
  | refl (s : State) : Steps s s
  | tail {s t u : State} : Steps s t → Step t u → Steps s u

/-- An initial state: non-negative stocks and an empty cart, order book and
appointment book (a freshly migrated database with a seeded catalog). -/
def GoodInit (s : State) : Prop :=
  (∀ pr ∈ s.products, 0 ≤ pr.2.stock) ∧ s.cart = [] ∧ s.orders = [] ∧
    s.appointments = []

/-- States reachable from some initial state through API mutations. -/
inductive Reachable : State → Prop where
  | init {s : State} : GoodInit s → Reachable s
  | step {s t : State} : Reachable s → Step s t → Reachable t

/-! ## Derived observers -/

/-- The stock of the product with key `pid`, when present. -/
def stockOf (s : State) (pid : ProductId) : Option Int :=
  (lookupProduct s pid).map (fun p => p.stock)

/-- The quantity of the (uid, pid) cart line, when present. -/
def qtyOf (s : State) (uid : UserId) (pid : ProductId) : Option Int :=
  (findCartLine s uid pid).map (fun cl => cl.qty)

/-- The lines of the order with key `oid`, when present. -/
def linesOf (s : State) (oid : Nat) : Option (List OrderLine) :=
  (s.orders.find? (fun o => o.id == oid)).map (fun o => o.lines)

/-- Total quantity the lines `L` request for product `pid`. -/
def sumQty (L : List CartLine) (pid : ProductId) : Int :=
  ((L.filter (fun cl => cl.productId == pid)).map (fun cl => cl.qty)).sum

/-! ## Frame lemmas: which fields each primitive leaves untouched -/

@[simp] lemma setStock_cart (s : State) (pid : ProductId) (v : Int) :
    (setStock s pid v).cart = s.cart := rfl

@[simp] lemma setStock_orders (s : State) (pid : ProductId) (v : Int) :
    (setStock s pid v).orders = s.orders := rfl

@[simp] lemma setStock_appointments (s : State) (pid : ProductId) (v : Int) :
    (setStock s pid v).appointments = s.appointments := rfl

@[simp] lemma setStock_nextOrderId (s : State) (pid : ProductId) (v : Int) :
    (setStock s pid v).nextOrderId = s.nextOrderId := rfl

@[simp] lemma appendOrderLine_products (s : State) (oid : Nat) (ol : OrderLine) :
    (appendOrderLine s oid ol).products = s.products := rfl

@[simp] lemma appendOrderLine_cart (s : State) (oid : Nat) (ol : OrderLine) :
    (appendOrderLine s oid ol).cart = s.cart := rfl

@[simp] lemma appendOrderLine_appointments (s : State) (oid : Nat) (ol : OrderLine) :
    (appendOrderLine s oid ol).appointments = s.appointments := rfl

@[simp] lemma appendOrderLine_nextOrderId (s : State) (oid : Nat) (ol : OrderLine) :
    (appendOrderLine s oid ol).nextOrderId = s.nextOrderId := rfl

@[simp] lemma removeCartLine_products (s : State) (uid : UserId) (pid : ProductId) :
    (removeCartLine s uid pid).products = s.products := rfl

@[simp] lemma removeCartLine_orders (s : State) (uid : UserId) (pid : ProductId) :
    (removeCartLine s uid pid).orders = s.orders := rfl

@[simp] lemma removeCartLine_appointments (s : State) (uid : UserId) (pid : ProductId) :
    (removeCartLine s uid pid).appointments = s.appointments := rfl

@[simp] lemma removeCartLine_nextOrderId (s : State) (uid : UserId) (pid : ProductId) :
    (removeCartLine s uid pid).nextOrderId = s.nextOrderId := rfl

@[simp] lemma setCartQty_products (s : State) (uid : UserId) (pid : ProductId) (v : Int) :
    (setCartQty s uid pid v).products = s.products := rfl

@[simp] lemma setCartQty_orders (s : State) (uid : UserId) (pid : ProductId) (v : Int) :
    (setCartQty s uid pid v).orders = s.orders := rfl

@[simp] lemma setCartQty_appointments (s : State) (uid : UserId) (pid : ProductId) (v : Int) :
    (setCartQty s uid pid v).appointments = s.appointments := rfl

@[simp] lemma mkOrder_products (s : State) (uid : UserId) (ad : Address) :
    (mkOrder s uid ad).products = s.products := rfl

@[simp] lemma mkOrder_cart (s : State) (uid : UserId) (ad : Address) :
    (mkOrder s uid ad).cart = s.cart := rfl

@[simp] lemma mkOrder_appointments (s : State) (uid : UserId) (ad : Address) :
    (mkOrder s uid ad).appointments = s.appointments := rfl

@[simp] lemma lookupProduct_mkOrder (s : State) (uid : UserId) (ad : Address) (pid : ProductId) :
    lookupProduct (mkOrder s uid ad) pid = lookupProduct s pid := rfl

@[simp] lemma lookupProduct_appendOrderLine (s : State) (oid : Nat) (ol : OrderLine)
    (pid : ProductId) :
    lookupProduct (appendOrderLine s oid ol) pid = lookupProduct s pid := rfl

@[simp] lemma lookupProduct_removeCartLine (s : State) (uid : UserId) (pid pid' : ProductId) :
    lookupProduct (removeCartLine s uid pid) pid' = lookupProduct s pid' := rfl

@[simp] lemma stockOf_mkOrder (s : State) (uid : UserId) (ad : Address) (pid : ProductId) :
    stockOf (mkOrder s uid ad) pid = stockOf s pid := rfl

/-! ## Lookup/update interaction on the product table -/

lemma find?_map_stock (l : List (ProductId × Product)) (pid tgt : ProductId) (v : Int) :
    (l.map (fun pr => if pr.1 == tgt then (pr.1, { pr.2 with stock := v }) else pr)).find?
        (fun pr => pr.1 == pid)
      = (l.find? (fun pr => pr.1 == pid)).map
          (fun pr => if pr.1 == tgt then (pr.1, { pr.2 with stock := v }) else pr) := by
  induction l with
  | nil => rfl
  | cons hd tl ih =>
    obtain ⟨k, pv⟩ := hd
    by_cases h : k = pid
    · subst h
      by_cases h2 : k = tgt
      · subst h2
        simp [List.find?_cons, -List.find?_map]
      · simp [List.find?_cons, h2, -List.find?_map]
    · by_cases h2 : k = tgt
      · subst h2
        simp [List.find?_cons, h, -List.find?_map] at ih ⊢
        exact ih
      · simp [List.find?_cons, h, h2, -List.find?_map] at ih ⊢
        exact ih

lemma lookupProduct_setStock_self (s : State) (pid : ProductId) (v : Int) :
    lookupProduct (setStock s pid v) pid
      = (lookupProduct s pid).map (fun p => { p with stock := v }) := by
  unfold lookupProduct setStock
  rw [show ({ s with products := s.products.map (fun pr =>
        if pr.1 == pid then (pr.1, { pr.2 with stock := v }) else pr) } : State).products
      = s.products.map (fun pr =>
        if pr.1 == pid then (pr.1, { pr.2 with stock := v }) else pr) from rfl]
  rw [find?_map_stock]
  cases h : s.products.find? (fun pr => pr.1 == pid) with
  | none => rfl
  | some pr =>
    have := List.find?_some h
    simp only [beq_iff_eq] at this
    simp [this]

lemma lookupProduct_setStock_ne (s : State) (pid pid' : ProductId) (v : Int)
    (h : pid' ≠ pid) :
    lookupProduct (setStock s pid v) pid' = lookupProduct s pid' := by
  unfold lookupProduct setStock
  rw [show ({ s with products := s.products.map (fun pr =>
        if pr.1 == pid then (pr.1, { pr.2 with stock := v }) else pr) } : State).products
      = s.products.map (fun pr =>
        if pr.1 == pid then (pr.1, { pr.2 with stock := v }) else pr) from rfl]
  rw [find?_map_stock]
  cases hf : s.products.find? (fun pr => pr.1 == pid') with
  | none => rfl
  | some pr =>
    have := List.find?_some hf
    simp only [beq_iff_eq] at this
    subst this
    simp [h]

lemma stockOf_setStock_self (s : State) (pid : ProductId) (v : Int) :
    stockOf (setStock s pid v) pid = (stockOf s pid).map (fun _ => v) := by
  unfold stockOf
  rw [lookupProduct_setStock_self]
  cases lookupProduct s pid <;> rfl

lemma stockOf_setStock_ne (s : State) (pid pid' : ProductId) (v : Int) (h : pid' ≠ pid) :
    stockOf (setStock s pid v) pid' = stockOf s pid' := by
  unfold stockOf
  rw [lookupProduct_setStock_ne s pid pid' v h]

lemma setStock_stockNonneg (s : State) (pid : ProductId) (v : Int) (hv : 0 ≤ v)
    (h : ∀ pr ∈ s.products, 0 ≤ pr.2.stock) :
    ∀ pr ∈ (setStock s pid v).products, 0 ≤ pr.2.stock := by
  intro pr hpr
  unfold setStock at hpr
  simp only [List.mem_map] at hpr
  obtain ⟨pr0, hpr0, heq⟩ := hpr
  by_cases hk : pr0.1 = pid
  · simp [hk] at heq
    subst heq
    exact hv
  · simp [hk] at heq
    subst heq
    exact h pr0 hpr0

/-! ## Structure of the order-placement loop -/

/-- The price/discount part of a product record, unchanged by stock updates. -/
def pdOf (p : Product) : Int × Int := (p.price, p.discount)

lemma processOne_fail_state {s s' : State} {oid : Nat} {cl : CartLine} {e : Err}
    (h : processOne s oid cl = (s', some e)) : s' = s := by
  unfold processOne at h
  cases hp : lookupProduct s cl.productId with
  | none =>
    simp only [hp] at h
    exact (congrArg Prod.fst h).symm
  | some p =>
    simp only [hp] at h
    by_cases hs : p.stock < cl.qty
    · rw [if_pos hs] at h
      exact (congrArg Prod.fst h).symm
    · rw [if_neg hs] at h
      have := congrArg Prod.snd h
      simp at this

lemma processOne_err {s s' : State} {oid : Nat} {cl : CartLine} {e : Err}
    (h : processOne s oid cl = (s', some e)) :
    e = Err.notFound ∨ e = Err.appError "Stock Error" := by
  unfold processOne at h
  cases hp : lookupProduct s cl.productId with
  | none =>
    simp only [hp] at h
    have := congrArg Prod.snd h
    simp at this
    exact Or.inl this.symm
  | some p =>
    simp only [hp] at h
    by_cases hs : p.stock < cl.qty
    · rw [if_pos hs] at h
      have := congrArg Prod.snd h
      simp at this
      exact Or.inr this.symm
    · rw [if_neg hs] at h
      have := congrArg Prod.snd h
      simp at this

lemma processOne_ok {s s' : State} {oid : Nat} {cl : CartLine}
    (h : processOne s oid cl = (s', none)) :
    ∃ p, lookupProduct s cl.productId = some p ∧ ¬(p.stock < cl.qty) ∧
      s' = removeCartLine
            (appendOrderLine (setStock s cl.productId (p.stock - cl.qty)) oid
              ⟨cl.productId, cl.qty, linePrice p⟩)
            cl.user cl.productId := by
  unfold processOne at h
  cases hp : lookupProduct s cl.productId with
  | none =>
    simp only [hp] at h
    have := congrArg Prod.snd h
    simp at this
  | some p =>
    simp only [hp] at h
    by_cases hs : p.stock < cl.qty
    · rw [if_pos hs] at h
      have := congrArg Prod.snd h
      simp at this
    · rw [if_neg hs] at h
      exact ⟨p, rfl, hs, (congrArg Prod.fst h).symm⟩

lemma processCart_cons (oid : Nat) (s : State) (cl : CartLine) (rest : List CartLine) :
    processCart oid s (cl :: rest) =
      match processOne s oid cl with
      | (s1, none) => processCart oid s1 rest
      | (s1, some e) => (s1, some e) := rfl

lemma processCart_fail {oid : Nat} :
    ∀ (L : List CartLine) (s s' : State) (e : Err),
      processCart oid s L = (s', some e) →
      ∃ done cl rest, L = done ++ cl :: rest ∧
        processCart oid s done = (s', none) ∧
        processOne s' oid cl = (s', some e) := by
  intro L
  induction L with
  | nil =>
    intro s s' e h
    simp [processCart] at h
  | cons cl rest ih =>
    intro s s' e h
    rw [processCart_cons] at h
    cases hp : processOne s oid cl with
    | mk s1 r =>
      cases r with
      | none =>
        simp only [hp] at h
        obtain ⟨done, cl2, rest2, hL, hdone, hfail⟩ := ih s1 s' e h
        refine ⟨cl :: done, cl2, rest2, by simp [hL], ?_, hfail⟩
        rw [processCart_cons]
        simp only [hp]
        exact hdone
      | some e2 =>
        simp only [hp] at h
        have hs : s1 = s' := congrArg Prod.fst h
        have he : e2 = e := by
          have := congrArg Prod.snd h
          simpa using this
        have hs0 : s1 = s := processOne_fail_state hp
        refine ⟨[], cl, rest, rfl, ?_, ?_⟩
        · show (s, none) = (s', none)
          rw [← hs, hs0]
        · rw [← hs, hs0, ← he]
          exact hs0 ▸ hp

lemma processCart_err {oid : Nat} {L : List CartLine} {s s' : State} {e : Err}
    (h : processCart oid s L = (s', some e)) :
    e = Err.notFound ∨ e = Err.appError "Stock Error" := by
  obtain ⟨done, cl, rest, _, _, hfail⟩ := processCart_fail L s s' e h
  exact processOne_err hfail

@[simp] lemma stockOf_appendOrderLine (s : State) (oid : Nat) (ol : OrderLine)
    (pid : ProductId) : stockOf (appendOrderLine s oid ol) pid = stockOf s pid := rfl

@[simp] lemma stockOf_removeCartLine (s : State) (uid : UserId) (pid pid' : ProductId) :
    stockOf (removeCartLine s uid pid) pid' = stockOf s pid' := rfl

lemma processOne_fst_nextOrderId (s : State) (oid : Nat) (cl : CartLine) :
    (processOne s oid cl).1.nextOrderId = s.nextOrderId := by
  rcases hlp : lookupProduct s cl.productId with _ | p
  · simp [processOne, hlp]
  · simp only [processOne, hlp]
    split <;> rfl

lemma processOne_fst_appointments (s : State) (oid : Nat) (cl : CartLine) :
    (processOne s oid cl).1.appointments = s.appointments := by
  rcases hlp : lookupProduct s cl.productId with _ | p
  · simp [processOne, hlp]
  · simp only [processOne, hlp]
    split <;> rfl

lemma processOne_fst_addresses (s : State) (oid : Nat) (cl : CartLine) :
    (processOne s oid cl).1.addresses = s.addresses := by
  rcases hlp : lookupProduct s cl.productId with _ | p
  · simp [processOne, hlp]
  · simp only [processOne, hlp]
    split <;> rfl

lemma processCart_nextOrderId {oid : Nat} :
    ∀ (L : List CartLine) (s : State),
      (processCart oid s L).1.nextOrderId = s.nextOrderId := by
  intro L
  induction L with
  | nil => intro s; rfl
  | cons cl rest ih =>
    intro s
    rw [processCart_cons]
    cases hp : processOne s oid cl with
    | mk s1 r =>
      have h1 : s1.nextOrderId = s.nextOrderId := by
        have := processOne_fst_nextOrderId s oid cl
        rw [hp] at this
        exact this
      cases r with
      | none => show (processCart oid s1 rest).1.nextOrderId = s.nextOrderId
                rw [ih s1, h1]
      | some e => exact h1

lemma processCart_appointments {oid : Nat} :
    ∀ (L : List CartLine) (s : State),
      (processCart oid s L).1.appointments = s.appointments := by
  intro L
  induction L with
  | nil => intro s; rfl
  | cons cl rest ih =>
    intro s
    rw [processCart_cons]
    cases hp : processOne s oid cl with
    | mk s1 r =>
      have h1 : s1.appointments = s.appointments := by
        have := processOne_fst_appointments s oid cl
        rw [hp] at this
        exact this
      cases r with
      | none => show (processCart oid s1 rest).1.appointments = s.appointments
                rw [ih s1, h1]
      | some e => exact h1

lemma processCart_addresses {oid : Nat} :
    ∀ (L : List CartLine) (s : State),
      (processCart oid s L).1.addresses = s.addresses := by
  intro L
  induction L with
  | nil => intro s; rfl
  | cons cl rest ih =>
    intro s
    rw [processCart_cons]
    cases hp : processOne s oid cl with
    | mk s1 r =>
      have h1 : s1.addresses = s.addresses := by
        have := processOne_fst_addresses s oid cl
        rw [hp] at this
        exact this
      cases r with
      | none => show (processCart oid s1 rest).1.addresses = s.addresses
                rw [ih s1, h1]
      | some e => exact h1

lemma processCart_cart_sublist {oid : Nat} :
    ∀ (L : List CartLine) (s : State),
      ((processCart oid s L).1).cart.Sublist s.cart := by
  intro L
  induction L with
  | nil => intro s; exact List.Sublist.refl _
  | cons cl rest ih =>
    intro s
    rw [processCart_cons]
    cases hp : processOne s oid cl with
    | mk s1 r =>
      cases r with
      | none =>
        show ((processCart oid s1 rest).1).cart.Sublist s.cart
        refine (ih s1).trans ?_
        obtain ⟨p, _, _, hs1⟩ := processOne_ok hp
        rw [hs1]
        exact List.filter_sublist _
      | some e =>
        show s1.cart.Sublist s.cart
        rw [processOne_fail_state hp]

lemma sumQty_cons (cl : CartLine) (rest : List CartLine) (pid : ProductId) :
    sumQty (cl :: rest) pid
      = (if cl.productId = pid then cl.qty else 0) + sumQty rest pid := by
  by_cases h : cl.productId = pid <;> simp [sumQty, List.filter_cons, h]

lemma stockOf_eq_some {s : State} {pid : ProductId} {p : Product}
    (h : lookupProduct s pid = some p) : stockOf s pid = some p.stock := by
  unfold stockOf
  rw [h]
  rfl

lemma processCart_stock {oid : Nat} :
    ∀ (L : List CartLine) (s s' : State), processCart oid s L = (s', none) →
      ∀ pid, stockOf s' pid = (stockOf s pid).map (fun v => v - sumQty L pid) := by
  intro L
  induction L with
  | nil =>
    intro s s' h pid
    have hs : s = s' := congrArg Prod.fst h
    subst hs
    cases stockOf s pid <;> simp [sumQty]
  | cons cl rest ih =>
    intro s s' h pid
    rw [processCart_cons] at h
    cases hp : processOne s oid cl with
    | mk s1 r =>
      cases r with
      | none =>
        simp only [hp] at h
        have hrest := ih s1 s' h pid
        obtain ⟨p, hlook, hstk, hs1⟩ := processOne_ok hp
        by_cases hpid : cl.productId = pid
        · subst hpid
          have h1 : stockOf s1 cl.productId
              = (stockOf s cl.productId).map (fun _ => p.stock - cl.qty) := by
            rw [hs1]
            rw [stockOf_removeCartLine, stockOf_appendOrderLine]
            exact stockOf_setStock_self s cl.productId (p.stock - cl.qty)
          rw [hrest, h1, stockOf_eq_some hlook]
          simp [sumQty_cons]
          omega
        · have h1 : stockOf s1 pid = stockOf s pid := by
            rw [hs1]
            rw [stockOf_removeCartLine, stockOf_appendOrderLine]
            exact stockOf_setStock_ne s cl.productId pid (p.stock - cl.qty)
              (fun hh => hpid hh.symm)
          rw [hrest, h1, sumQty_cons]
          simp [hpid]
      | some e =>
        simp only [hp] at h
        have := congrArg Prod.snd h
        simp at this

lemma mem_orders_appendOrderLine {s : State} {oid : Nat} {ol : OrderLine} {o : Order}
    (ho : o ∈ s.orders) (hne : o.id ≠ oid) : o ∈ (appendOrderLine s oid ol).orders := by
  unfold appendOrderLine
  simp only [List.mem_map]
  exact ⟨o, ho, by simp [hne]⟩

lemma processOne_orders_keep {s : State} {oid : Nat} {cl : CartLine} {o : Order}
    (ho : o ∈ s.orders) (hne : o.id ≠ oid) : o ∈ (processOne s oid cl).1.orders := by
  rcases hlp : lookupProduct s cl.productId with _ | p
  · simpa [processOne, hlp] using ho
  · simp only [processOne, hlp]
    split
    · exact ho
    · show o ∈ (removeCartLine (appendOrderLine (setStock s cl.productId (p.stock - cl.qty))
          oid ⟨cl.productId, cl.qty, linePrice p⟩) cl.user cl.productId).orders
      rw [removeCartLine_orders]
      exact mem_orders_appendOrderLine ho hne

lemma processOne_orders_ids_rev {s : State} {oid : Nat} {cl : CartLine} {o' : Order}
    (h : o' ∈ (processOne s oid cl).1.orders) : ∃ o ∈ s.orders, o'.id = o.id := by
  rcases hlp : lookupProduct s cl.productId with _ | p
  · simp only [processOne, hlp] at h
    exact ⟨o', h, rfl⟩
  · simp only [processOne, hlp] at h
    rcases lt_or_le p.stock cl.qty with hs | hs
    · rw [if_pos hs] at h
      exact ⟨o', h, rfl⟩
    · rw [if_neg (not_lt.mpr hs)] at h
      rw [show (removeCartLine (appendOrderLine (setStock s cl.productId (p.stock - cl.qty))
          oid ⟨cl.productId, cl.qty, linePrice p⟩) cl.user cl.productId, (none : Option Err)).1.orders
          = (appendOrderLine (setStock s cl.productId (p.stock - cl.qty))
              oid ⟨cl.productId, cl.qty, linePrice p⟩).orders from rfl] at h
      unfold appendOrderLine at h
      simp only [List.mem_map] at h
      obtain ⟨o, ho, heq⟩ := h
      refine ⟨o, ho, ?_⟩
      subst heq
      split <;> rfl

lemma processOne_orders_ids {s : State} {oid : Nat} {cl : CartLine} {o : Order}
    (ho : o ∈ s.orders) : ∃ o' ∈ (processOne s oid cl).1.orders, o'.id = o.id := by
  rcases hlp : lookupProduct s cl.productId with _ | p
  · simp only [processOne, hlp]
    exact ⟨o, ho, rfl⟩
  · simp only [processOne, hlp]
    split
    · exact ⟨o, ho, rfl⟩
    · refine ⟨if o.id == oid then { o with lines := o.lines ++ [⟨cl.productId, cl.qty, linePrice p⟩] } else o, ?_, ?_⟩
      · show _ ∈ (appendOrderLine (setStock s cl.productId (p.stock - cl.qty))
            oid ⟨cl.productId, cl.qty, linePrice p⟩).orders
        unfold appendOrderLine
        simp only [List.mem_map]
        exact ⟨o, ho, rfl⟩
      · split <;> rfl

lemma processCart_orders_keep {oid : Nat} :
    ∀ (L : List CartLine) (s : State) (o : Order),
      o ∈ s.orders → o.id ≠ oid → o ∈ (processCart oid s L).1.orders := by
  intro L
  induction L with
  | nil => intro s o ho _; exact ho
  | cons cl rest ih =>
    intro s o ho hne
    rw [processCart_cons]
    cases hp : processOne s oid cl with
    | mk s1 r =>
      have ho1 : o ∈ s1.orders := by
        have := @processOne_orders_keep s oid cl o ho hne
        rw [hp] at this
        exact this
      cases r with
      | none => exact ih s1 o ho1 hne
      | some e => exact ho1

lemma processCart_orders_ids_rev {oid : Nat} :
    ∀ (L : List CartLine) (s : State) (o' : Order),
      o' ∈ (processCart oid s L).1.orders → ∃ o ∈ s.orders, o'.id = o.id := by
  intro L
  induction L with
  | nil => intro s o' h; exact ⟨o', h, rfl⟩
  | cons cl rest ih =>
    intro s o' h
    rw [processCart_cons] at h
    cases hp : processOne s oid cl with
    | mk s1 r =>
      simp only [hp] at h
      cases r with
      | none =>
        obtain ⟨o1, ho1, hid1⟩ := ih s1 o' h
        have : o1 ∈ (processOne s oid cl).1.orders := by rw [hp]; exact ho1
        obtain ⟨o0, ho0, hid0⟩ := processOne_orders_ids_rev this
        exact ⟨o0, ho0, hid1.trans hid0⟩
      | some e =>
        have : o' ∈ (processOne s oid cl).1.orders := by rw [hp]; exact h
        exact processOne_orders_ids_rev this

lemma processCart_orders_ids {oid : Nat} :
    ∀ (L : List CartLine) (s : State) (o : Order),
      o ∈ s.orders → ∃ o' ∈ (processCart oid s L).1.orders, o'.id = o.id := by
  intro L
  induction L with
  | nil => intro s o ho; exact ⟨o, ho, rfl⟩
  | cons cl rest ih =>
    intro s o ho
    rw [processCart_cons]
    cases hp : processOne s oid cl with
    | mk s1 r =>
      obtain ⟨o1, ho1, hid1⟩ := @processOne_orders_ids s oid cl o ho
      rw [hp] at ho1
      cases r with
      | none =>
        obtain ⟨o', ho', hid'⟩ := ih s1 o1 ho1
        exact ⟨o', ho', hid'.trans hid1⟩
      | some e => exact ⟨o1, ho1, hid1⟩

lemma processCart_stockNonneg {oid : Nat} :
    ∀ (L : List CartLine) (s : State),
      (∀ pr ∈ s.products, 0 ≤ pr.2.stock) →
      ∀ pr ∈ (processCart oid s L).1.products, 0 ≤ pr.2.stock := by
  intro L
  induction L with
  | nil => intro s h; exact h
  | cons cl rest ih =>
    intro s h
    rw [processCart_cons]
    cases hp : processOne s oid cl with
    | mk s1 r =>
      have h1 : ∀ pr ∈ s1.products, 0 ≤ pr.2.stock := by
        rcases hlp : lookupProduct s cl.productId with _ | p
        · simp only [processOne, hlp] at hp
          have : s = s1 := congrArg Prod.fst hp
          subst this
          exact h
        · simp only [processOne, hlp] at hp
          rcases lt_or_le p.stock cl.qty with hs | hs
          · rw [if_pos hs] at hp
            have : s = s1 := congrArg Prod.fst hp
            subst this
            exact h
          · rw [if_neg (not_lt.mpr hs)] at hp
            have hfst : removeCartLine (appendOrderLine
                (setStock s cl.productId (p.stock - cl.qty)) oid
                ⟨cl.productId, cl.qty, linePrice p⟩) cl.user cl.productId = s1 :=
              congrArg Prod.fst hp
            rw [← hfst]
            intro pr hpr
            rw [removeCartLine_products, appendOrderLine_products] at hpr
            exact setStock_stockNonneg s cl.productId (p.stock - cl.qty)
              (by omega) h pr hpr
      cases r with
      | none => exact ih s1 h1
      | some e => exact h1

lemma pdOf_setStock (s : State) (pid : ProductId) (v : Int) (pid' : ProductId) :
    (lookupProduct (setStock s pid v) pid').map pdOf
      = (lookupProduct s pid').map pdOf := by
  by_cases h : pid' = pid
  · subst h
    rw [lookupProduct_setStock_self]
    cases lookupProduct s pid' <;> rfl
  · rw [lookupProduct_setStock_ne s pid pid' v h]

lemma processOne_pdOf (s : State) (oid : Nat) (cl : CartLine) (pid' : ProductId) :
    (lookupProduct (processOne s oid cl).1 pid').map pdOf
      = (lookupProduct s pid').map pdOf := by
  rcases hlp : lookupProduct s cl.productId with _ | p
  · simp [processOne, hlp]
  · simp only [processOne, hlp]
    split
    · rfl
    · show (lookupProduct (removeCartLine (appendOrderLine
          (setStock s cl.productId (p.stock - cl.qty)) oid
          ⟨cl.productId, cl.qty, linePrice p⟩) cl.user cl.productId) pid').map pdOf = _
      rw [lookupProduct_removeCartLine, lookupProduct_appendOrderLine]
      exact pdOf_setStock s cl.productId (p.stock - cl.qty) pid'

lemma processCart_pdOf {oid : Nat} :
    ∀ (L : List CartLine) (s : State) (pid' : ProductId),
      (lookupProduct (processCart oid s L).1 pid').map pdOf
        = (lookupProduct s pid').map pdOf := by
  intro L
  induction L with
  | nil => intro s _; rfl
  | cons cl rest ih =>
    intro s pid'
    rw [processCart_cons]
    cases hp : processOne s oid cl with
    | mk s1 r =>
      have h1 : (lookupProduct s1 pid').map pdOf = (lookupProduct s pid').map pdOf := by
        have := processOne_pdOf s oid cl pid'
        rw [hp] at this
        exact this
      cases r with
      | none =>
        show (lookupProduct (processCart oid s1 rest).1 pid').map pdOf = _
        rw [ih s1 pid', h1]
      | some e => exact h1

lemma linePrice_pdOf {p q : Product} (h : pdOf p = pdOf q) : linePrice p = linePrice q := by
  unfold pdOf at h
  obtain ⟨h1, h2⟩ := Prod.mk.injEq .. ▸ h
  unfold linePrice
  rw [h1, h2]

@[simp] lemma linesOf_setStock (s : State) (pid : ProductId) (v : Int) (oid : Nat) :
    linesOf (setStock s pid v) oid = linesOf s oid := rfl

@[simp] lemma linesOf_removeCartLine (s : State) (uid : UserId) (pid : ProductId)
    (oid : Nat) : linesOf (removeCartLine s uid pid) oid = linesOf s oid := rfl

lemma find?_map_lines (l : List Order) (oid tgt : Nat) (ol : OrderLine) :
    (l.map (fun o => if o.id == tgt then { o with lines := o.lines ++ [ol] } else o)).find?
        (fun o => o.id == oid)
      = (l.find? (fun o => o.id == oid)).map
          (fun o => if o.id == tgt then { o with lines := o.lines ++ [ol] } else o) := by
  induction l with
  | nil => rfl
  | cons hd tl ih =>
    obtain ⟨i, u, sh, ls⟩ := hd
    by_cases h : i = oid
    · subst h
      by_cases h2 : i = tgt
      · subst h2
        simp [List.find?_cons, -List.find?_map]
      · simp [List.find?_cons, h2, -List.find?_map]
    · by_cases h2 : i = tgt
      · subst h2
        simp [List.find?_cons, h, -List.find?_map] at ih ⊢
        exact ih
      · simp [List.find?_cons, h, h2, -List.find?_map] at ih ⊢
        exact ih

lemma linesOf_appendOrderLine_self (s : State) (oid : Nat) (ol : OrderLine) :
    linesOf (appendOrderLine s oid ol) oid
      = (linesOf s oid).map (fun ls => ls ++ [ol]) := by
  unfold linesOf appendOrderLine
  rw [show ({ s with orders := s.orders.map (fun o =>
        if o.id == oid then { o with lines := o.lines ++ [ol] } else o) } : State).orders
      = s.orders.map (fun o =>
        if o.id == oid then { o with lines := o.lines ++ [ol] } else o) from rfl]
  rw [find?_map_lines]
  cases h : s.orders.find? (fun o => o.id == oid) with
  | none => rfl
  | some o =>
    have := List.find?_some h
    simp only [beq_iff_eq] at this
    simp [this]

lemma processCart_lines_sub {oid : Nat} :
    ∀ (L : List CartLine) (s s' : State), processCart oid s L = (s', none) →
      ∀ ls', linesOf s' oid = some ls' → ∀ ol ∈ ls',
        (∃ ls, linesOf s oid = some ls ∧ ol ∈ ls) ∨
        ∃ cl, cl ∈ L ∧ ∃ p, lookupProduct s cl.productId = some p ∧
          ol = ⟨cl.productId, cl.qty, linePrice p⟩ := by
  intro L
  induction L with
  | nil =>
    intro s s' h ls' hls ol hol
    have : s = s' := congrArg Prod.fst h
    subst this
    exact Or.inl ⟨ls', hls, hol⟩
  | cons cl rest ih =>
    intro s s' h ls' hls ol hol
    rw [processCart_cons] at h
    cases hp : processOne s oid cl with
    | mk s1 r =>
      cases r with
      | some e =>
        simp only [hp] at h
        have := congrArg Prod.snd h
        simp at this
      | none =>
        simp only [hp] at h
        obtain ⟨p, hlook, hstk, hs1⟩ := processOne_ok hp
        have hlines1 : linesOf s1 oid
            = (linesOf s oid).map
                (fun ls => ls ++ [⟨cl.productId, cl.qty, linePrice p⟩]) := by
          rw [hs1, linesOf_removeCartLine, linesOf_appendOrderLine_self, linesOf_setStock]
        rcases ih s1 s' h ls' hls ol hol with hA | hB
        · obtain ⟨ls1, hls1, hol1⟩ := hA
          rw [hlines1] at hls1
          cases h0 : linesOf s oid with
          | none => rw [h0] at hls1; simp at hls1
          | some ls0 =>
            rw [h0] at hls1
            simp only [Option.map_some'] at hls1
            have hls1' : ls1 = ls0 ++ [⟨cl.productId, cl.qty, linePrice p⟩] :=
              (Option.some.inj hls1).symm
            subst hls1'
            rcases List.mem_append.mp hol1 with h1 | h2
            · exact Or.inl ⟨ls0, rfl, h1⟩
            · simp only [List.mem_singleton] at h2
              exact Or.inr ⟨cl, List.mem_cons_self cl rest, p, hlook, h2⟩
        · obtain ⟨cl', hcl', p1, hp1, holp⟩ := hB
          have hpd : (lookupProduct s1 cl'.productId).map pdOf
              = (lookupProduct s cl'.productId).map pdOf := by
            have := processOne_pdOf s oid cl cl'.productId
            rw [hp] at this
            exact this
          rw [hp1] at hpd
          cases h0 : lookupProduct s cl'.productId with
          | none => rw [h0] at hpd; simp at hpd
          | some p0 =>
            rw [h0] at hpd
            simp only [Option.map_some', Option.some.injEq] at hpd
            refine Or.inr ⟨cl', List.mem_cons_of_mem _ hcl', p0, h0, ?_⟩
            rw [holp]
            rw [linePrice_pdOf hpd]

/-! ## Case analyses of the top-level mutations -/

lemma orderCart_none {s : State} {uid : UserId} {aid : AddressId}
    (h : lookupAddress s aid = none) :
    orderCart s uid aid = (s, Except.error Err.notFound) := by
  unfold orderCart
  simp only [h]

lemma orderCart_some {s : State} {uid : UserId} {aid : AddressId} {ad : Address}
    (h : lookupAddress s aid = some ad) :
    orderCart s uid aid
      = (match processCart s.nextOrderId (mkOrder s uid ad)
            (userCart (mkOrder s uid ad) uid) with
        | (s1, none) => (s1, Except.ok s.nextOrderId)
        | (s1, some e) => (s1, Except.error e)) := by
  unfold orderCart
  simp only [h]

lemma userCart_mkOrder (s : State) (uid uid' : UserId) (ad : Address) :
    userCart (mkOrder s uid' ad) uid = userCart s uid := rfl

lemma orderProduct_none_addr {s : State} {uid : UserId} {aid : AddressId}
    {pid : ProductId} {qty : Int} (h : lookupAddress s aid = none) :
    orderProduct s uid aid pid qty = (s, Except.error Err.notFound) := by
  unfold orderProduct
  simp only [h]

lemma orderProduct_none_prod {s : State} {uid : UserId} {aid : AddressId}
    {pid : ProductId} {qty : Int} {ad : Address}
    (ha : lookupAddress s aid = some ad) (hp : lookupProduct s pid = none) :
    orderProduct s uid aid pid qty = (mkOrder s uid ad, Except.error Err.notFound) := by
  unfold orderProduct
  simp only [ha, lookupProduct_mkOrder, hp]

lemma orderProduct_stockfail {s : State} {uid : UserId} {aid : AddressId}
    {pid : ProductId} {qty : Int} {ad : Address} {p : Product}
    (ha : lookupAddress s aid = some ad) (hp : lookupProduct s pid = some p)
    (hs : p.stock < qty) :
    orderProduct s uid aid pid qty
      = (mkOrder s uid ad, Except.error (Err.appError "Stock Error")) := by
  unfold orderProduct
  simp only [ha, lookupProduct_mkOrder, hp]
  rw [if_pos hs]

lemma orderProduct_ok {s : State} {uid : UserId} {aid : AddressId}
    {pid : ProductId} {qty : Int} {ad : Address} {p : Product}
    (ha : lookupAddress s aid = some ad) (hp : lookupProduct s pid = some p)
    (hs : ¬(p.stock < qty)) :
    orderProduct s uid aid pid qty
      = (appendOrderLine (setStock (mkOrder s uid ad) pid (p.stock - qty))
          s.nextOrderId ⟨pid, qty, linePrice p⟩,
         Except.ok s.nextOrderId) := by
  unfold orderProduct
  simp only [ha, lookupProduct_mkOrder, hp]
  rw [if_neg hs]

lemma setCart_fst (s : State) (uid : UserId) (pid : ProductId) (qty : Int) (add : Bool) :
    (setCart s uid pid qty add).1 = s
  ∨ (∃ v, (setCart s uid pid qty add).1 = setCartQty s uid pid v)
  ∨ (setCart s uid pid qty add).1 = removeCartLine s uid pid
  ∨ (findCartLine s uid pid = none ∧ 0 < qty ∧
      (setCart s uid pid qty add).1 = { s with cart := s.cart ++ [⟨uid, pid, qty⟩] }) := by
  unfold setCart
  cases h : findCartLine s uid pid with
  | some cl =>
    by_cases ha : add
    · exact Or.inr (Or.inl ⟨cl.qty + qty, by simp [h, ha]⟩)
    · by_cases hq : qty > 0
      · exact Or.inr (Or.inl ⟨qty, by simp [h, ha, hq]⟩)
      · exact Or.inr (Or.inr (Or.inl (by simp [h, ha, hq])))
  | none =>
    by_cases hq : qty > 0
    · exact Or.inr (Or.inr (Or.inr ⟨rfl, hq, by simp [h, hq]⟩))
    · exact Or.inl (by simp [h, hq])

lemma setCart_products (s : State) (uid : UserId) (pid : ProductId) (qty : Int)
    (add : Bool) : (setCart s uid pid qty add).1.products = s.products := by
  rcases setCart_fst s uid pid qty add with h | ⟨v, h⟩ | h | ⟨-, -, h⟩ <;> rw [h] <;> rfl

lemma setCart_orders (s : State) (uid : UserId) (pid : ProductId) (qty : Int)
    (add : Bool) : (setCart s uid pid qty add).1.orders = s.orders := by
  rcases setCart_fst s uid pid qty add with h | ⟨v, h⟩ | h | ⟨-, -, h⟩ <;> rw [h] <;> rfl

lemma setCart_appointments (s : State) (uid : UserId) (pid : ProductId) (qty : Int)
    (add : Bool) : (setCart s uid pid qty add).1.appointments = s.appointments := by
  rcases setCart_fst s uid pid qty add with h | ⟨v, h⟩ | h | ⟨-, -, h⟩ <;> rw [h] <;> rfl

lemma setCart_addresses (s : State) (uid : UserId) (pid : ProductId) (qty : Int)
    (add : Bool) : (setCart s uid pid qty add).1.addresses = s.addresses := by
  rcases setCart_fst s uid pid qty add with h | ⟨v, h⟩ | h | ⟨-, -, h⟩ <;> rw [h] <;> rfl

lemma setCart_nextOrderId (s : State) (uid : UserId) (pid : ProductId) (qty : Int)
    (add : Bool) : (setCart s uid pid qty add).1.nextOrderId = s.nextOrderId := by
  rcases setCart_fst s uid pid qty add with h | ⟨v, h⟩ | h | ⟨-, -, h⟩ <;> rw [h] <;> rfl

lemma bookAppointment_conflict {s : State} {uid : UserId} {ts : DateTime} {a : Appointment}
    (ha : a ∈ s.appointments) (hd : a.timestamp.date = ts.date) :
    bookAppointment s uid ts = (s, Except.error (Err.appError "No slot on that day!")) := by
  unfold bookAppointment
  rw [if_pos]
  have hmem : a ∈ s.appointments.filter (fun b => b.timestamp.date == ts.date) :=
    List.mem_filter.mpr ⟨ha, by simp [hd]⟩
  exact List.length_pos.mpr (List.ne_nil_of_mem hmem)

lemma bookAppointment_free {s : State} {uid : UserId} {ts : DateTime}
    (h : ∀ a ∈ s.appointments, a.timestamp.date ≠ ts.date) :
    bookAppointment s uid ts
      = ({ s with appointments := s.appointments ++ [⟨uid, ts⟩] },
         Except.ok ⟨uid, ts⟩) := by
  unfold bookAppointment
  have hnil : s.appointments.filter (fun b => b.timestamp.date == ts.date) = [] :=
    List.filter_eq_nil_iff.mpr (fun a ha => by simp [h a ha])
  rw [if_neg]
  rw [hnil]
  simp

lemma bookAppointment_products (s : State) (uid : UserId) (ts : DateTime) :
    (bookAppointment s uid ts).1.products = s.products := by
  unfold bookAppointment
  split <;> rfl

lemma bookAppointment_cart (s : State) (uid : UserId) (ts : DateTime) :
    (bookAppointment s uid ts).1.cart = s.cart := by
  unfold bookAppointment
  split <;> rfl

lemma bookAppointment_orders (s : State) (uid : UserId) (ts : DateTime) :
    (bookAppointment s uid ts).1.orders = s.orders := by
  unfold bookAppointment
  split <;> rfl

lemma bookAppointment_nextOrderId (s : State) (uid : UserId) (ts : DateTime) :
    (bookAppointment s uid ts).1.nextOrderId = s.nextOrderId := by
  unfold bookAppointment
  split <;> rfl

/-! ## Cart-line lookup lemmas -/

lemma find?_map_qty (l : List CartLine) (uid : UserId) (pid : ProductId) (v : Int) :
    (l.map (fun cl => if cl.user == uid && cl.productId == pid
        then { cl with qty := v } else cl)).find?
        (fun cl => cl.user == uid && cl.productId == pid)
      = (l.find? (fun cl => cl.user == uid && cl.productId == pid)).map
          (fun cl => if cl.user == uid && cl.productId == pid
            then { cl with qty := v } else cl) := by
  induction l with
  | nil => rfl
  | cons hd tl ih =>
    obtain ⟨u, pd, q⟩ := hd
    by_cases h1 : u = uid
    · subst h1
      by_cases h2 : pd = pid
      · subst h2
        simp [List.find?_cons, -List.find?_map]
      · simp [List.find?_cons, h2, -List.find?_map] at ih ⊢
        exact ih
    · simp [List.find?_cons, h1, -List.find?_map] at ih ⊢
      exact ih

lemma qtyOf_setCartQty_self (s : State) (uid : UserId) (pid : ProductId) (v : Int) :
    qtyOf (setCartQty s uid pid v) uid pid = (qtyOf s uid pid).map (fun _ => v) := by
  unfold qtyOf findCartLine setCartQty
  rw [show ({ s with cart := s.cart.map (fun cl =>
        if cl.user == uid && cl.productId == pid then { cl with qty := v } else cl) }
        : State).cart
      = s.cart.map (fun cl =>
        if cl.user == uid && cl.productId == pid then { cl with qty := v } else cl) from rfl]
  rw [find?_map_qty]
  cases h : s.cart.find? (fun cl => cl.user == uid && cl.productId == pid) with
  | none => rfl
  | some cl =>
    have := List.find?_some h
    simp only [Bool.and_eq_true, beq_iff_eq] at this
    simp [this.1, this.2]

lemma find?_filter_not {α : Type} (l : List α) (p : α → Bool) :
    (l.filter (fun x => !(p x))).find? p = none := by
  rw [List.find?_eq_none]
  intro x hx
  have := (List.mem_filter.mp hx).2
  simp at this
  simp [this]

lemma qtyOf_removeCartLine_self (s : State) (uid : UserId) (pid : ProductId) :
    qtyOf (removeCartLine s uid pid) uid pid = none := by
  unfold qtyOf findCartLine removeCartLine
  rw [show ({ s with cart := s.cart.filter (fun cl =>
        !(cl.user == uid && cl.productId == pid)) } : State).cart
      = s.cart.filter (fun cl => !(cl.user == uid && cl.productId == pid)) from rfl]
  rw [find?_filter_not]
  rfl

lemma qtyOf_append_new (s : State) (uid : UserId) (pid : ProductId) (q : Int)
    (h : findCartLine s uid pid = none) :
    qtyOf { s with cart := s.cart ++ [⟨uid, pid, q⟩] } uid pid = some q := by
  unfold qtyOf findCartLine
  unfold findCartLine at h
  rw [show ({ s with cart := s.cart ++ [⟨uid, pid, q⟩] } : State).cart
      = s.cart ++ [⟨uid, pid, q⟩] from rfl]
  rw [List.find?_append, h]
  simp [List.find?_cons]

/-! ## Invariants of reachable states -/

/-- No product row ever stores a negative stock. -/
def StockNonneg (s : State) : Prop := ∀ pr ∈ s.products, 0 ≤ pr.2.stock

/-- No two appointment rows share a calendar date. -/
def DatesOK (s : State) : Prop :=
  s.appointments.Pairwise (fun a b => a.timestamp.date ≠ b.timestamp.date)

/-- (user, product) is a unique key of the cart table. -/
def CartKeysOK (s : State) : Prop :=
  s.cart.Pairwise (fun a b => ¬(a.user = b.user ∧ a.productId = b.productId))

/-- Every persisted order id is below the id counter. -/
def OrderIdsOK (s : State) : Prop := ∀ o ∈ s.orders, o.id < s.nextOrderId

/-- Every cart line has a positive quantity. -/
def PosCart (s : State) : Prop := ∀ cl ∈ s.cart, 0 < cl.qty

lemma orderCart_fst_appointments (s : State) (uid : UserId) (aid : AddressId) :
    (orderCart s uid aid).1.appointments = s.appointments := by
  cases hla : lookupAddress s aid with
  | none => rw [orderCart_none hla]
  | some ad =>
    rw [orderCart_some hla]
    cases hpc : processCart s.nextOrderId (mkOrder s uid ad)
        (userCart (mkOrder s uid ad) uid) with
    | mk s1 r =>
      have h1 : s1.appointments = s.appointments := by
        have h2 := @processCart_appointments s.nextOrderId
          (userCart (mkOrder s uid ad) uid) (mkOrder s uid ad)
        rw [hpc] at h2
        exact h2
      cases r <;> exact h1

lemma orderCart_fst_addresses (s : State) (uid : UserId) (aid : AddressId) :
    (orderCart s uid aid).1.addresses = s.addresses := by
  cases hla : lookupAddress s aid with
  | none => rw [orderCart_none hla]
  | some ad =>
    rw [orderCart_some hla]
    cases hpc : processCart s.nextOrderId (mkOrder s uid ad)
        (userCart (mkOrder s uid ad) uid) with
    | mk s1 r =>
      have h1 : s1.addresses = s.addresses := by
        have h2 := @processCart_addresses s.nextOrderId
          (userCart (mkOrder s uid ad) uid) (mkOrder s uid ad)
        rw [hpc] at h2
        exact h2
      cases r <;> exact h1

lemma orderCart_fst_cart_sublist (s : State) (uid : UserId) (aid : AddressId) :
    (orderCart s uid aid).1.cart.Sublist s.cart := by
  cases hla : lookupAddress s aid with
  | none => rw [orderCart_none hla]
  | some ad =>
    rw [orderCart_some hla]
    cases hpc : processCart s.nextOrderId (mkOrder s uid ad)
        (userCart (mkOrder s uid ad) uid) with
    | mk s1 r =>
      have h1 : s1.cart.Sublist s.cart := by
        have h2 := @processCart_cart_sublist s.nextOrderId
          (userCart (mkOrder s uid ad) uid) (mkOrder s uid ad)
        rw [hpc] at h2
        exact h2
      cases r <;> exact h1

lemma orderProduct_fst_cart (s : State) (uid : UserId) (aid : AddressId)
    (pid : ProductId) (qty : Int) :
    (orderProduct s uid aid pid qty).1.cart = s.cart := by
  rcases hla : lookupAddress s aid with _ | ad
  · rw [orderProduct_none_addr hla]
  · rcases hlp : lookupProduct s pid with _ | p
    · rw [orderProduct_none_prod hla hlp]; rfl
    · rcases lt_or_le p.stock qty with hs | hs
      · rw [orderProduct_stockfail hla hlp hs]; rfl
      · rw [orderProduct_ok hla hlp (not_lt.mpr hs)]; rfl

lemma orderProduct_fst_appointments (s : State) (uid : UserId) (aid : AddressId)
    (pid : ProductId) (qty : Int) :
    (orderProduct s uid aid pid qty).1.appointments = s.appointments := by
  rcases hla : lookupAddress s aid with _ | ad
  · rw [orderProduct_none_addr hla]
  · rcases hlp : lookupProduct s pid with _ | p
    · rw [orderProduct_none_prod hla hlp]; rfl
    · rcases lt_or_le p.stock qty with hs | hs
      · rw [orderProduct_stockfail hla hlp hs]; rfl
      · rw [orderProduct_ok hla hlp (not_lt.mpr hs)]; rfl

lemma orderProduct_fst_addresses (s : State) (uid : UserId) (aid : AddressId)
    (pid : ProductId) (qty : Int) :
    (orderProduct s uid aid pid qty).1.addresses = s.addresses := by
  rcases hla : lookupAddress s aid with _ | ad
  · rw [orderProduct_none_addr hla]
  · rcases hlp : lookupProduct s pid with _ | p
    · rw [orderProduct_none_prod hla hlp]; rfl
    · rcases lt_or_le p.stock qty with hs | hs
      · rw [orderProduct_stockfail hla hlp hs]; rfl
      · rw [orderProduct_ok hla hlp (not_lt.mpr hs)]; rfl

lemma bookAppointment_fst_cases (s : State) (uid : UserId) (ts : DateTime) :
    (bookAppointment s uid ts).1 = s ∨
    ((∀ a ∈ s.appointments, a.timestamp.date ≠ ts.date) ∧
      (bookAppointment s uid ts).1
        = { s with appointments := s.appointments ++ [⟨uid, ts⟩] }) := by
  by_cases hc : ∃ a ∈ s.appointments, a.timestamp.date = ts.date
  · obtain ⟨a, ha, hd⟩ := hc
    rw [bookAppointment_conflict ha hd]
    exact Or.inl rfl
  · push_neg at hc
    rw [bookAppointment_free hc]
    exact Or.inr ⟨hc, rfl⟩

lemma step_stockNonneg {s t : State} (hst : Step s t) (h : StockNonneg s) :
    StockNonneg t := by
  cases hst with
  | setCartStep uid pid qty add =>
    unfold StockNonneg
    rw [setCart_products]
    exact h
  | orderCartStep uid aid =>
    cases hla : lookupAddress s aid with
    | none => rw [orderCart_none hla]; exact h
    | some ad =>
      rw [orderCart_some hla]
      cases hpc : processCart s.nextOrderId (mkOrder s uid ad)
          (userCart (mkOrder s uid ad) uid) with
      | mk s1 r =>
        have h1 : ∀ pr ∈ s1.products, 0 ≤ pr.2.stock := by
          have h2 := @processCart_stockNonneg s.nextOrderId
            (userCart (mkOrder s uid ad) uid) (mkOrder s uid ad) h
          rw [hpc] at h2
          exact h2
        cases r <;> exact h1
  | orderProductStep uid aid pid qty =>
    rcases hla : lookupAddress s aid with _ | ad
    · rw [orderProduct_none_addr hla]; exact h
    · rcases hlp : lookupProduct s pid with _ | p
      · rw [orderProduct_none_prod hla hlp]; exact h
      · rcases lt_or_le p.stock qty with hs | hs
        · rw [orderProduct_stockfail hla hlp hs]; exact h
        · rw [orderProduct_ok hla hlp (not_lt.mpr hs)]
          intro pr hpr
          rw [show (appendOrderLine (setStock (mkOrder s uid ad) pid (p.stock - qty))
              s.nextOrderId ⟨pid, qty, linePrice p⟩, (Except.ok s.nextOrderId
                : Except Err Nat)).1.products
              = (setStock (mkOrder s uid ad) pid (p.stock - qty)).products from rfl] at hpr
          exact setStock_stockNonneg (mkOrder s uid ad) pid (p.stock - qty)
            (by omega) h pr hpr
  | bookStep uid ts =>
    unfold StockNonneg
    rw [bookAppointment_products]
    exact h
  | createAddressStep a _ => exact h
  | deleteAddressStep aid => exact h

lemma step_datesOK {s t : State} (hst : Step s t) (h : DatesOK s) : DatesOK t := by
  cases hst with
  | setCartStep uid pid qty add =>
    unfold DatesOK
    rw [setCart_appointments]
    exact h
  | orderCartStep uid aid =>
    unfold DatesOK
    rw [orderCart_fst_appointments]
    exact h
  | orderProductStep uid aid pid qty =>
    unfold DatesOK
    rw [orderProduct_fst_appointments]
    exact h
  | bookStep uid ts =>
    rcases bookAppointment_fst_cases s uid ts with hcase | ⟨hfree, hcase⟩
    · rw [hcase]; exact h
    · rw [hcase]
      unfold DatesOK
      rw [show ({ s with appointments := s.appointments ++ [⟨uid, ts⟩] }
          : State).appointments = s.appointments ++ [⟨uid, ts⟩] from rfl]
      rw [List.pairwise_append]
      refine ⟨h, by simp, ?_⟩
      intro a ha b hb
      simp only [List.mem_singleton] at hb
      subst hb
      exact hfree a ha
  | createAddressStep a _ => exact h
  | deleteAddressStep aid => exact h

lemma step_cartKeysOK {s t : State} (hst : Step s t) (h : CartKeysOK s) :
    CartKeysOK t := by
  cases hst with
  | setCartStep uid pid qty add =>
    rcases setCart_fst s uid pid qty add with hc | ⟨v, hc⟩ | hc | ⟨hnone, hq, hc⟩
    · rw [hc]; exact h
    · rw [hc]
      unfold CartKeysOK setCartQty
      rw [show ({ s with cart := s.cart.map (fun cl =>
            if cl.user == uid && cl.productId == pid then { cl with qty := v } else cl) }
            : State).cart
          = s.cart.map (fun cl =>
            if cl.user == uid && cl.productId == pid then { cl with qty := v } else cl)
          from rfl]
      rw [List.pairwise_map]
      refine h.imp ?_
      intro a b hr
      have ha : ∀ cl : CartLine,
          ((if cl.user == uid && cl.productId == pid then { cl with qty := v } else cl)
            : CartLine).user = cl.user ∧
          ((if cl.user == uid && cl.productId == pid then { cl with qty := v } else cl)
            : CartLine).productId = cl.productId := by
        intro cl
        split <;> exact ⟨rfl, rfl⟩
      rw [(ha a).1, (ha a).2, (ha b).1, (ha b).2]
      exact hr
    · rw [hc]
      unfold CartKeysOK removeCartLine
      exact List.Pairwise.sublist (List.filter_sublist _) h
    · rw [hc]
      unfold CartKeysOK
      rw [show ({ s with cart := s.cart ++ [⟨uid, pid, qty⟩] } : State).cart
          = s.cart ++ [⟨uid, pid, qty⟩] from rfl]
      rw [List.pairwise_append]
      refine ⟨h, by simp, ?_⟩
      intro a ha b hb
      simp only [List.mem_singleton] at hb
      subst hb
      have := List.find?_eq_none.mp hnone a ha
      simp only [Bool.and_eq_true, beq_iff_eq] at this
      simpa using this
  | orderCartStep uid aid =>
    exact List.Pairwise.sublist (orderCart_fst_cart_sublist s uid aid) h
  | orderProductStep uid aid pid qty =>
    unfold CartKeysOK
    rw [orderProduct_fst_cart]
    exact h
  | bookStep uid ts =>
    unfold CartKeysOK
    rw [bookAppointment_cart]
    exact h
  | createAddressStep a _ => exact h
  | deleteAddressStep aid => exact h

lemma appendOrderLine_ids_rev {s : State} {oid : Nat} {ol : OrderLine} {o' : Order}
    (h : o' ∈ (appendOrderLine s oid ol).orders) : ∃ o ∈ s.orders, o'.id = o.id := by
  unfold appendOrderLine at h
  simp only [List.mem_map] at h
  obtain ⟨o, ho, heq⟩ := h
  subst heq
  refine ⟨o, ho, ?_⟩
  split <;> rfl

lemma mkOrder_orderIdsOK {s : State} {uid : UserId} {ad : Address}
    (h : OrderIdsOK s) : OrderIdsOK (mkOrder s uid ad) := by
  intro o ho
  have ho' : o ∈ s.orders ++ [⟨s.nextOrderId, uid, ad.data, []⟩] := ho
  rcases List.mem_append.mp ho' with h4 | h4
  · exact Nat.lt_succ_of_lt (h o h4)
  · simp only [List.mem_singleton] at h4
    subst h4
    exact Nat.lt_succ_self _

lemma step_orderIdsOK {s t : State} (hst : Step s t) (h : OrderIdsOK s) :
    OrderIdsOK t := by
  cases hst with
  | setCartStep uid pid qty add =>
    intro o ho
    rw [setCart_orders] at ho
    rw [setCart_nextOrderId]
    exact h o ho
  | orderCartStep uid aid =>
    cases hla : lookupAddress s aid with
    | none => rw [orderCart_none hla]; exact h
    | some ad =>
      rw [orderCart_some hla]
      cases hpc : processCart s.nextOrderId (mkOrder s uid ad)
          (userCart (mkOrder s uid ad) uid) with
      | mk s1 r =>
        have hnext : s1.nextOrderId = s.nextOrderId + 1 := by
          have h2 := @processCart_nextOrderId s.nextOrderId
            (userCart (mkOrder s uid ad) uid) (mkOrder s uid ad)
          rw [hpc] at h2
          exact h2
        have hids : OrderIdsOK s1 := by
          intro o' ho'
          have h3 : o' ∈ (processCart s.nextOrderId (mkOrder s uid ad)
              (userCart (mkOrder s uid ad) uid)).1.orders := by
            rw [hpc]; exact ho'
          obtain ⟨o, ho, hid⟩ := processCart_orders_ids_rev _ _ _ h3
          rw [hnext, hid]
          exact mkOrder_orderIdsOK h o ho
        cases r <;> exact hids
  | orderProductStep uid aid pid qty =>
    rcases hla : lookupAddress s aid with _ | ad
    · rw [orderProduct_none_addr hla]; exact h
    · rcases hlp : lookupProduct s pid with _ | p
      · rw [orderProduct_none_prod hla hlp]
        exact mkOrder_orderIdsOK h
      · rcases lt_or_le p.stock qty with hs | hs
        · rw [orderProduct_stockfail hla hlp hs]
          exact mkOrder_orderIdsOK h
        · rw [orderProduct_ok hla hlp (not_lt.mpr hs)]
          intro o' ho'
          have ho'' : o' ∈ (appendOrderLine (setStock (mkOrder s uid ad) pid
              (p.stock - qty)) s.nextOrderId ⟨pid, qty, linePrice p⟩).orders := ho'
          obtain ⟨o, ho, hid⟩ := appendOrderLine_ids_rev ho''
          have : o ∈ (mkOrder s uid ad).orders := ho
          have hlt := mkOrder_orderIdsOK h o this
          show o'.id < (mkOrder s uid ad).nextOrderId
          rw [hid]
          exact hlt
  | bookStep uid ts =>
    intro o ho
    rw [bookAppointment_orders] at ho
    rw [bookAppointment_nextOrderId]
    exact h o ho
  | createAddressStep a _ => exact h
  | deleteAddressStep aid => exact h

lemma step_orders_keep {s t : State} (hI : OrderIdsOK s) (hst : Step s t) :
    ∀ o ∈ s.orders, o ∈ t.orders := by
  cases hst with
  | setCartStep uid pid qty add =>
    intro o ho
    rw [setCart_orders]
    exact ho
  | orderCartStep uid aid =>
    intro o ho
    cases hla : lookupAddress s aid with
    | none => rw [orderCart_none hla]; exact ho
    | some ad =>
      rw [orderCart_some hla]
      have ho1 : o ∈ (mkOrder s uid ad).orders := by
        show o ∈ s.orders ++ [⟨s.nextOrderId, uid, ad.data, []⟩]
        exact List.mem_append_left _ ho
      have hne : o.id ≠ s.nextOrderId := Nat.ne_of_lt (hI o ho)
      have hk := @processCart_orders_keep s.nextOrderId
        (userCart (mkOrder s uid ad) uid) (mkOrder s uid ad) o ho1 hne
      cases hpc : processCart s.nextOrderId (mkOrder s uid ad)
          (userCart (mkOrder s uid ad) uid) with
      | mk s1 r =>
        rw [hpc] at hk
        cases r <;> exact hk
  | orderProductStep uid aid pid qty =>
    intro o ho
    rcases hla : lookupAddress s aid with _ | ad
    · rw [orderProduct_none_addr hla]; exact ho
    · have hmk : o ∈ (mkOrder s uid ad).orders := by
        show o ∈ s.orders ++ [⟨s.nextOrderId, uid, ad.data, []⟩]
        exact List.mem_append_left _ ho
      rcases hlp : lookupProduct s pid with _ | p
      · rw [orderProduct_none_prod hla hlp]; exact hmk
      · rcases lt_or_le p.stock qty with hs | hs
        · rw [orderProduct_stockfail hla hlp hs]; exact hmk
        · rw [orderProduct_ok hla hlp (not_lt.mpr hs)]
          show o ∈ (appendOrderLine (setStock (mkOrder s uid ad) pid (p.stock - qty))
              s.nextOrderId ⟨pid, qty, linePrice p⟩).orders
          exact mem_orders_appendOrderLine hmk (Nat.ne_of_lt (hI o ho))
  | bookStep uid ts =>
    intro o ho
    rw [bookAppointment_orders]
    exact ho
  | createAddressStep a _ => intro o ho; exact ho
  | deleteAddressStep aid => intro o ho; exact ho

/-! ## Reachability corollaries -/

lemma reachable_stockNonneg {s : State} (h : Reachable s) : StockNonneg s := by
  induction h with
  | init hg => exact hg.1
  | step _ hst ih => exact step_stockNonneg hst ih

lemma reachable_datesOK {s : State} (h : Reachable s) : DatesOK s := by
  induction h with
  | init hg =>
    unfold DatesOK
    rw [hg.2.2.2]
    exact List.Pairwise.nil
  | step _ hst ih => exact step_datesOK hst ih

lemma reachable_cartKeysOK {s : State} (h : Reachable s) : CartKeysOK s := by
  induction h with
  | init hg =>
    unfold CartKeysOK
    rw [hg.2.1]
    exact List.Pairwise.nil
  | step _ hst ih => exact step_cartKeysOK hst ih

lemma reachable_orderIdsOK {s : State} (h : Reachable s) : OrderIdsOK s := by
  induction h with
  | init hg =>
    intro o ho
    rw [hg.2.2.1] at ho
    cases ho
  | step _ hst ih => exact step_orderIdsOK hst ih

lemma reachable_of_steps {s t : State} (h : Reachable s) (hst : Steps s t) :
    Reachable t := by
  induction hst with
  | refl => exact h
  | tail _ hstep ih => exact Reachable.step ih hstep

lemma steps_orders_keep {s t : State} (hr : Reachable s) (hst : Steps s t) :
    ∀ o ∈ s.orders, o ∈ t.orders := by
  induction hst with
  | refl => intro o ho; exact ho
  | tail h1 h2 ih =>
    intro o ho
    exact step_orders_keep
      (reachable_orderIdsOK (reachable_of_steps hr h1)) h2 _ (ih o ho)

/-! ## Per-user cart keys and quantity sums -/

lemma userCart_keys {s : State} {uid : UserId} (h : CartKeysOK s) :
    (userCart s uid).Pairwise (fun a b => a.productId ≠ b.productId) := by
  unfold userCart
  have h1 : (s.cart.filter (fun cl => cl.user == uid)).Pairwise
      (fun a b => ¬(a.user = b.user ∧ a.productId = b.productId)) :=
    List.Pairwise.sublist (List.filter_sublist _) h
  refine List.Pairwise.imp_of_mem ?_ h1
  intro a b ha hb hr
  have hau : a.user = uid := by simpa using (List.mem_filter.mp ha).2
  have hbu : b.user = uid := by simpa using (List.mem_filter.mp hb).2
  intro hpp
  exact hr ⟨hau.trans hbu.symm, hpp⟩

lemma sumQty_eq_of_mem {L : List CartLine} {cl : CartLine}
    (hnd : L.Pairwise (fun a b => a.productId ≠ b.productId)) (hm : cl ∈ L) :
    sumQty L cl.productId = cl.qty := by
  induction L with
  | nil => cases hm
  | cons hd tl ih =>
    rcases List.mem_cons.mp hm with h1 | h1
    · subst h1
      have hall : ∀ x ∈ tl, ¬((x.productId == cl.productId) = true) := by
        intro x hx
        have hne := (List.pairwise_cons.mp hnd).1 x hx
        simp [hne.symm]
      have hfil : tl.filter (fun x => x.productId == cl.productId) = [] :=
        List.filter_eq_nil_iff.mpr hall
      have hsum : sumQty tl cl.productId = 0 := by
        unfold sumQty
        rw [hfil]
        rfl
      rw [sumQty_cons, hsum, if_pos rfl]
      omega
    · have hne := (List.pairwise_cons.mp hnd).1 cl h1
      rw [sumQty_cons, if_neg hne]
      rw [zero_add]
      exact ih (List.pairwise_cons.mp hnd).2 h1

/-! ## Branch equations for `setCart` -/

lemma setCart_true_some {s : State} {uid : UserId} {pid : ProductId} {qty : Int}
    {cl : CartLine} (hf : findCartLine s uid pid = some cl) :
    (setCart s uid pid qty true).1 = setCartQty s uid pid (cl.qty + qty) := by
  unfold setCart
  simp [hf]

lemma setCart_false_some {s : State} {uid : UserId} {pid : ProductId} {qty : Int}
    {cl : CartLine} (hf : findCartLine s uid pid = some cl) :
    (setCart s uid pid qty false).1
      = if qty > 0 then setCartQty s uid pid qty else removeCartLine s uid pid := by
  unfold setCart
  simp only [hf]
  rfl

lemma setCart_none {s : State} {uid : UserId} {pid : ProductId} {qty : Int} {add : Bool}
    (hf : findCartLine s uid pid = none) :
    (setCart s uid pid qty add).1
      = if qty > 0 then { s with cart := s.cart ++ [⟨uid, pid, qty⟩] } else s := by
  unfold setCart
  simp only [hf]

lemma setCart_snd (s : State) (uid : UserId) (pid : ProductId) (qty : Int) (add : Bool) :
    (setCart s uid pid qty add).2 = userCart (setCart s uid pid qty add).1 uid := rfl

/-! ## Positivity of cart quantities -/

lemma posCart_setCartQty {s : State} {uid : UserId} {pid : ProductId} {v : Int}
    (h : PosCart s) (hv : 0 < v) : PosCart (setCartQty s uid pid v) := by
  intro cl hcl
  unfold setCartQty at hcl
  simp only [List.mem_map] at hcl
  obtain ⟨cl0, hcl0, heq⟩ := hcl
  subst heq
  split
  · exact hv
  · exact h cl0 hcl0

lemma posCart_removeCartLine {s : State} {uid : UserId} {pid : ProductId}
    (h : PosCart s) : PosCart (removeCartLine s uid pid) :=
  fun cl hcl => h cl (List.mem_of_mem_filter hcl)

lemma posCart_orderCart {s : State} (uid : UserId) (aid : AddressId)
    (h : PosCart s) : PosCart (orderCart s uid aid).1 :=
  fun cl hcl => h cl ((orderCart_fst_cart_sublist s uid aid).subset hcl)

lemma posCart_orderProduct {s : State} (uid : UserId) (aid : AddressId)
    (pid : ProductId) (qty : Int) (h : PosCart s) :
    PosCart (orderProduct s uid aid pid qty).1 := by
  intro cl hcl
  rw [orderProduct_fst_cart] at hcl
  exact h cl hcl

lemma posCart_book {s : State} (uid : UserId) (ts : DateTime) (h : PosCart s) :
    PosCart (bookAppointment s uid ts).1 := by
  intro cl hcl
  rw [bookAppointment_cart] at hcl
  exact h cl hcl

/-! ## Characterisation of the catalog filters -/

/-- The name filter as a predicate: trivially true when no non-empty search
string is given. -/
def searchPred (search : Option String) (p : Product) : Bool :=
  match search with
  | some srch => if srch ≠ "" then icontains p.name srch else true
  | none => true

/-- The kind filter as a predicate: trivially true when no non-empty kind is
given. -/
def kindPred (kind : Option String) (p : Product) : Bool :=
  match kind with
  | some k => if k ≠ "" then decide (p.kind = k) else true
  | none => true

/-- A product passes the listing when it passes both filters. -/
def productMatches (search kind : Option String) (p : Product) : Bool :=
  searchPred search p && kindPred kind p

lemma applySearch_eq (search : Option String) (qs : List Product) :
    applySearch search qs = qs.filter (searchPred search) := by
  unfold applySearch searchPred
  cases search with
  | none => simp
  | some srch =>
    by_cases hs : srch = ""
    · subst hs; simp
    · simp [hs]

lemma applyKind_eq (kind : Option String) (qs : List Product) :
    applyKind kind qs = qs.filter (kindPred kind) := by
  unfold applyKind kindPred
  cases kind with
  | none => simp
  | some k =>
    by_cases hk : k = ""
    · subst hk; simp
    · simp [hk]

lemma applySkip_eq (skip : Option Nat) (qs : List Product) :
    applySkip skip qs = qs.drop (skip.getD 0) := by
  unfold applySkip
  cases skip with
  | none => simp
  | some n =>
    by_cases hn : n = 0
    · subst hn; simp
    · simp [hn]

lemma resolve_products_eq (ps : List Product) (first skip : Option Nat)
    (search kind : Option String) :
    resolve_products ps first skip search kind
      = applyFirst first ((ps.filter (productMatches search kind)).drop (skip.getD 0)) := by
  unfold resolve_products
  rw [applySearch_eq, applyKind_eq, applySkip_eq, List.filter_filter]
  have hcomm : ps.filter (fun a => kindPred kind a && searchPred search a)
      = ps.filter (productMatches search kind) :=
    List.filter_congr (fun x _ => by unfold productMatches; rw [Bool.and_comm])
  rw [hcomm]

/-! ## Concrete states used by witnesses and counterexamples -/

/-- A shipping address snapshot. -/
def exAddrData : AddressData := ⟨"A", "9", "l1", "l2", 1, "c", "st", "in"⟩

/-- Address row 1, owned by user 7. -/
def exAddr : Address := ⟨1, 7, exAddrData⟩

/-- A freshly seeded store: three products, no cart, orders or appointments. -/
def exInit : State :=
  ⟨[(1, ⟨"Widget", "toy", 100, 0, 5⟩), (2, ⟨"Gadget", "toy", 50, 0, 0⟩),
    (3, ⟨"Disc", "toy", 100, 10, 4⟩)],
   [], [], [exAddr], [], 0⟩

/-- `exInit` after user 7 put 2 Widgets and 3 Gadgets in the cart. -/
def exSt : State :=
  ⟨[(1, ⟨"Widget", "toy", 100, 0, 5⟩), (2, ⟨"Gadget", "toy", 50, 0, 0⟩),
    (3, ⟨"Disc", "toy", 100, 10, 4⟩)],
   [⟨7, 1, 2⟩, ⟨7, 2, 3⟩], [], [exAddr], [], 0⟩

/-- A store whose only appointment is user 9's, on day 10 at time 5. -/
def exApSt : State :=
  ⟨[(1, ⟨"Widget", "toy", 100, 0, 5⟩)], [], [], [exAddr], [⟨9, ⟨10, 5⟩⟩], 0⟩

/-- `exInit` with a cart line of quantity −3, as produced by `setCart` with
`add = true` and a negative delta. -/
def badCartState : State :=
  ⟨[(1, ⟨"Widget", "toy", 100, 0, 5⟩), (2, ⟨"Gadget", "toy", 50, 0, 0⟩),
    (3, ⟨"Disc", "toy", 100, 10, 4⟩)],
   [⟨7, 1, -3⟩], [], [exAddr], [], 0⟩

lemma goodInit_exInit : GoodInit exInit := ⟨by decide, rfl, rfl, rfl⟩

lemma reachable_exSt : Reachable exSt := by
  have h1 : Reachable exInit := Reachable.init goodInit_exInit
  have h2 : Reachable (setCart exInit 7 1 2 false).1 :=
    Reachable.step h1 (Step.setCartStep exInit 7 1 2 false)
  have h3 : Reachable (setCart (setCart exInit 7 1 2 false).1 7 2 3 false).1 :=
    Reachable.step h2 (Step.setCartStep _ 7 2 3 false)
  have he : (setCart (setCart exInit 7 1 2 false).1 7 2 3 false).1 = exSt := by decide
  exact he ▸ h3

/-! ## Claim theorems -/

/-- C1 counterexample: with cart lines [(Widget, 2), (Gadget, 3)], Widget stock
5 and Gadget stock 0, `OrderCart.mutate` raises "Stock Error" on the Gadget
line — yet Widget's stock has already been decremented from 5 to 3, the Widget
cart line has already been deleted, and the `Order` row created before the loop
is persisted.  This refutes the claimed all-or-nothing behaviour. -/
theorem C1_counterexample :
    (orderCart exSt 7 1).2 = Except.error (Err.appError "Stock Error") ∧
    stockOf exSt 1 = some 5 ∧
    stockOf (orderCart exSt 7 1).1 1 = some 3 ∧
    findCartLine exSt 7 1 = some ⟨7, 1, 2⟩ ∧
    findCartLine (orderCart exSt 7 1).1 7 1 = none ∧
    exSt.orders.length = 0 ∧
    (orderCart exSt 7 1).1.orders.length = 1 := by
  refine ⟨by decide, by decide, by decide, by decide, by decide, by decide, by decide⟩

/-- C1 (amended): when `OrderCart.mutate` raises, either the address was absent
(`NotFound`, nothing mutated), or the user's cart splits as `done ++ cl :: rest`
where every line of `done` has been fully committed (stock decremented, order
line appended, cart line deleted), the failing line `cl` and everything after it
are untouched, and the `Order` row created before the loop persists in the
failed state.  Mutations are not rolled back. -/
theorem C1_amended :
    ∀ (s : State) (uid : UserId) (aid : AddressId) (e : Err),
      (orderCart s uid aid).2 = Except.error e →
      (lookupAddress s aid = none ∧ e = Err.notFound ∧ (orderCart s uid aid).1 = s) ∨
      (∃ ad, lookupAddress s aid = some ad ∧
        ∃ done cl rest, userCart s uid = done ++ cl :: rest ∧
          processCart s.nextOrderId (mkOrder s uid ad) done
            = ((orderCart s uid aid).1, none) ∧
          processOne (orderCart s uid aid).1 s.nextOrderId cl
            = ((orderCart s uid aid).1, some e) ∧
          ∃ o ∈ (orderCart s uid aid).1.orders, o.id = s.nextOrderId) := by
  intro s uid aid e h
  cases hla : lookupAddress s aid with
  | none =>
    rw [orderCart_none hla] at h ⊢
    left
    refine ⟨rfl, ?_, rfl⟩
    have h2 : (Except.error Err.notFound : Except Err Nat) = Except.error e := h
    exact (Except.error.inj h2).symm
  | some ad =>
    rw [orderCart_some hla] at h ⊢
    cases hpc : processCart s.nextOrderId (mkOrder s uid ad)
        (userCart (mkOrder s uid ad) uid) with
    | mk s1 r =>
      simp only [hpc] at h ⊢
      cases r with
      | none => simp at h
      | some e2 =>
        have he : e2 = e := by simpa using h
        subst he
        right
        obtain ⟨done, cl, rest, hL, hdone, hfail⟩ :=
          processCart_fail (userCart (mkOrder s uid ad) uid) (mkOrder s uid ad) s1 e2 hpc
        refine ⟨ad, rfl, done, cl, rest, ?_, ?_, ?_, ?_⟩
        · rw [← userCart_mkOrder s uid uid ad]
          exact hL
        · exact hdone
        · exact hfail
        · have hnew : (⟨s.nextOrderId, uid, ad.data, []⟩ : Order)
              ∈ (mkOrder s uid ad).orders := by
            show _ ∈ s.orders ++ [⟨s.nextOrderId, uid, ad.data, []⟩]
            exact List.mem_append_right _ (List.mem_singleton_self _)
          obtain ⟨o', ho', hid⟩ := processCart_orders_ids _ _ _ hnew
          rw [hpc] at ho'
          exact ⟨o', ho', hid⟩

/-- C1 amended, witnessed on the concrete failing cart of `exSt`. -/
theorem C1_amended_witness :
    (lookupAddress exSt 1 = none ∧ Err.appError "Stock Error" = Err.notFound ∧
      (orderCart exSt 7 1).1 = exSt) ∨
    (∃ ad, lookupAddress exSt 1 = some ad ∧
      ∃ done cl rest, userCart exSt 7 = done ++ cl :: rest ∧
        processCart exSt.nextOrderId (mkOrder exSt 7 ad) done
          = ((orderCart exSt 7 1).1, none) ∧
        processOne (orderCart exSt 7 1).1 exSt.nextOrderId cl
          = ((orderCart exSt 7 1).1, some (Err.appError "Stock Error")) ∧
        ∃ o ∈ (orderCart exSt 7 1).1.orders, o.id = exSt.nextOrderId) :=
  C1_amended exSt 7 1 (Err.appError "Stock Error") (by decide)

/-- C2: in every reachable state every stock is non-negative; a successful
`OrderProduct.mutate` decrements the ordered product's stock by exactly the
ordered quantity; a successful `OrderCart.mutate` decrements each cart line's
product by that line's quantity; and a quantity exceeding the available stock
makes `OrderProduct.mutate` fail with "Stock Error" instead of driving the
stock negative. -/
theorem C2_stock :
    (∀ s, Reachable s → ∀ pr ∈ s.products, 0 ≤ pr.2.stock) ∧
    (∀ s uid aid pid qty oid, (orderProduct s uid aid pid qty).2 = Except.ok oid →
      stockOf (orderProduct s uid aid pid qty).1 pid
        = (stockOf s pid).map (fun v => v - qty)) ∧
    (∀ s uid aid oid, Reachable s → (orderCart s uid aid).2 = Except.ok oid →
      ∀ cl ∈ userCart s uid,
        stockOf (orderCart s uid aid).1 cl.productId
          = (stockOf s cl.productId).map (fun v => v - cl.qty)) ∧
    (∀ s uid aid pid qty ad v, lookupAddress s aid = some ad →
      stockOf s pid = some v → v < qty →
      (orderProduct s uid aid pid qty).2 = Except.error (Err.appError "Stock Error")) := by
  refine ⟨fun s hr => reachable_stockNonneg hr, ?_, ?_, ?_⟩
  · intro s uid aid pid qty oid h
    cases hla : lookupAddress s aid with
    | none => rw [orderProduct_none_addr hla] at h; simp at h
    | some ad =>
      cases hlp : lookupProduct s pid with
      | none => rw [orderProduct_none_prod hla hlp] at h; simp at h
      | some p =>
        rcases lt_or_le p.stock qty with hs | hs
        · rw [orderProduct_stockfail hla hlp hs] at h; simp at h
        · rw [orderProduct_ok hla hlp (not_lt.mpr hs)]
          show stockOf (appendOrderLine (setStock (mkOrder s uid ad) pid (p.stock - qty))
              s.nextOrderId ⟨pid, qty, linePrice p⟩) pid = _
          rw [stockOf_appendOrderLine, stockOf_setStock_self, stockOf_mkOrder,
            stockOf_eq_some hlp]
          rfl
  · intro s uid aid oid hr h cl hcl
    cases hla : lookupAddress s aid with
    | none => rw [orderCart_none hla] at h; simp at h
    | some ad =>
      rw [orderCart_some hla] at h ⊢
      cases hpc : processCart s.nextOrderId (mkOrder s uid ad)
          (userCart (mkOrder s uid ad) uid) with
      | mk s1 r =>
        simp only [hpc] at h ⊢
        cases r with
        | some e => simp at h
        | none =>
          have hstock := processCart_stock _ _ _ hpc cl.productId
          rw [stockOf_mkOrder] at hstock
          have hkeys := @userCart_keys s uid (reachable_cartKeysOK hr)
          have hsum : sumQty (userCart (mkOrder s uid ad) uid) cl.productId = cl.qty := by
            rw [userCart_mkOrder]
            exact sumQty_eq_of_mem hkeys hcl
          rw [hsum] at hstock
          exact hstock
  · intro s uid aid pid qty ad v hla hst hv
    unfold stockOf at hst
    cases hlp : lookupProduct s pid with
    | none => rw [hlp] at hst; simp at hst
    | some p =>
      rw [hlp] at hst
      simp only [Option.map_some', Option.some.injEq] at hst
      rw [orderProduct_stockfail hla hlp (by omega)]

/-- C2, witnessed: ordering 2 Widgets (stock 5) succeeds and leaves stock 3. -/
theorem C2_stock_witness :
    stockOf (orderProduct exSt 7 1 1 2).1 1 = (stockOf exSt 1).map (fun v => v - 2) :=
  C2_stock.2.1 exSt 7 1 1 2 0 (by decide)

/-- C3: in every reachable state no two appointments share a calendar date;
`BookAppointment.mutate` rejects (state unchanged, "No slot on that day!")
whenever any existing appointment, by any user and at any time of day, shares
the requested calendar date, and otherwise appends the appointment. -/
theorem C3_slots :
    (∀ s, Reachable s →
      s.appointments.Pairwise (fun a b => a.timestamp.date ≠ b.timestamp.date)) ∧
    (∀ s uid ts (a : Appointment), a ∈ s.appointments → a.timestamp.date = ts.date →
      bookAppointment s uid ts
        = (s, Except.error (Err.appError "No slot on that day!"))) ∧
    (∀ s uid ts, (∀ a ∈ s.appointments, a.timestamp.date ≠ ts.date) →
      bookAppointment s uid ts
        = ({ s with appointments := s.appointments ++ [⟨uid, ts⟩] },
           Except.ok ⟨uid, ts⟩)) := by
  refine ⟨fun s hr => reachable_datesOK hr, ?_, ?_⟩
  · intro s uid ts a ha hd
    exact bookAppointment_conflict ha hd
  · intro s uid ts h
    exact bookAppointment_free h

/-- C3, witnessed: a booking on day 10 at a different time of day, by a
different user, is rejected with the slot-taken error. -/
theorem C3_slots_witness :
    bookAppointment exApSt 1 ⟨10, 20⟩
      = (exApSt, Except.error (Err.appError "No slot on that day!")) :=
  C3_slots.2.1 exApSt 1 ⟨10, 20⟩ ⟨9, ⟨10, 5⟩⟩ (by decide) (by decide)

lemma linesOf_mkOrder {s : State} {uid : UserId} {ad : Address} (hI : OrderIdsOK s) :
    linesOf (mkOrder s uid ad) s.nextOrderId = some [] := by
  unfold linesOf
  rw [show (mkOrder s uid ad).orders
      = s.orders ++ [⟨s.nextOrderId, uid, ad.data, []⟩] from rfl]
  rw [List.find?_append]
  have h1 : s.orders.find? (fun o => o.id == s.nextOrderId) = none :=
    List.find?_eq_none.mpr (fun o ho => by simp [Nat.ne_of_lt (hI o ho)])
  rw [h1]
  simp [List.find?_cons]

/-- C4: the order line created by a successful `OrderProduct.mutate` records
exactly `ceil(price - discount*price/100)` computed from the product row read
during the call; every line of an order created by a successful
`OrderCart.mutate` likewise carries the price computed from the product as it
stood at call time; and orders, once created, are carried unchanged (lines,
quantities and prices included) through every later API mutation — so no later
change to a product's price or discount can alter an existing order line. -/
theorem C4_price_frozen :
    (∀ s uid aid pid qty ad p, Reachable s →
      lookupAddress s aid = some ad → lookupProduct s pid = some p →
      ¬(p.stock < qty) →
      linesOf (orderProduct s uid aid pid qty).1 s.nextOrderId
        = some [⟨pid, qty, linePrice p⟩]) ∧
    (∀ s uid aid oid, Reachable s → (orderCart s uid aid).2 = Except.ok oid →
      ∀ ls, linesOf (orderCart s uid aid).1 oid = some ls → ∀ ol ∈ ls,
        ∃ cl ∈ userCart s uid, ∃ p, lookupProduct s cl.productId = some p ∧
          ol = ⟨cl.productId, cl.qty, linePrice p⟩) ∧
    (∀ s t, Reachable s → Steps s t → ∀ o ∈ s.orders, o ∈ t.orders) := by
  refine ⟨?_, ?_, fun s t hr hst => steps_orders_keep hr hst⟩
  · intro s uid aid pid qty ad p hr ha hp hs
    rw [orderProduct_ok ha hp hs]
    show linesOf (appendOrderLine (setStock (mkOrder s uid ad) pid (p.stock - qty))
        s.nextOrderId ⟨pid, qty, linePrice p⟩) s.nextOrderId = _
    rw [linesOf_appendOrderLine_self, linesOf_setStock,
      linesOf_mkOrder (reachable_orderIdsOK hr)]
    rfl
  · intro s uid aid oid hr h ls hls ol hol
    cases hla : lookupAddress s aid with
    | none => rw [orderCart_none hla] at h; simp at h
    | some ad =>
      rw [orderCart_some hla] at h hls
      cases hpc : processCart s.nextOrderId (mkOrder s uid ad)
          (userCart (mkOrder s uid ad) uid) with
      | mk s1 r =>
        simp only [hpc] at h hls
        cases r with
        | some e => simp at h
        | none =>
          have hoid : s.nextOrderId = oid := by simpa using h
          subst hoid
          have hls' : linesOf s1 s.nextOrderId = some ls := hls
          rcases processCart_lines_sub _ _ _ hpc ls hls' ol hol with
            ⟨ls0, hls0, hol0⟩ | ⟨cl, hcl, p, hp, hol0⟩
          · rw [linesOf_mkOrder (reachable_orderIdsOK hr)] at hls0
            have hnil : ls0 = [] := (Option.some.inj hls0).symm
            subst hnil
            cases hol0
          · refine ⟨cl, ?_, p, hp, hol0⟩
            rw [← userCart_mkOrder s uid uid ad]
            exact hcl

/-- C4, witnessed: ordering 2 of the product priced 100 with discount 10
freezes a unit price of ceil(100 − 10·100/100) = 90 in the order line. -/
theorem C4_price_frozen_witness :
    linesOf (orderProduct exSt 7 1 3 2).1 0 = some [⟨3, 2, 90⟩] := by
  have h := C4_price_frozen.1 exSt 7 1 3 2 exAddr ⟨"Disc", "toy", 100, 10, 4⟩
    reachable_exSt (by decide) (by decide) (by decide)
  have hp : linePrice ⟨"Disc", "toy", 100, 10, 4⟩ = 90 := by
    norm_num [linePrice]
  rw [hp] at h
  exact h

/-- C5: `SetCart.mutate` — on an existing (user, product) line, `add = true`
yields prior + delta; `add = false` with a positive quantity overwrites and
with a non-positive quantity deletes the line; with no existing line a positive
quantity creates the line and a non-positive quantity leaves the state exactly
unchanged; and the mutation always returns the user's full current cart. -/
theorem C5_setCart :
    (∀ s uid pid qty q0, qtyOf s uid pid = some q0 →
      qtyOf (setCart s uid pid qty true).1 uid pid = some (q0 + qty)) ∧
    (∀ s uid pid qty q0, qtyOf s uid pid = some q0 → 0 < qty →
      qtyOf (setCart s uid pid qty false).1 uid pid = some qty) ∧
    (∀ s uid pid qty q0, qtyOf s uid pid = some q0 → qty ≤ 0 →
      qtyOf (setCart s uid pid qty false).1 uid pid = none) ∧
    (∀ s uid pid qty add, qtyOf s uid pid = none → 0 < qty →
      qtyOf (setCart s uid pid qty add).1 uid pid = some qty) ∧
    (∀ s uid pid qty add, qtyOf s uid pid = none → qty ≤ 0 →
      (setCart s uid pid qty add).1 = s) ∧
    (∀ s uid pid qty add,
      (setCart s uid pid qty add).2 = userCart (setCart s uid pid qty add).1 uid) := by
  refine ⟨?_, ?_, ?_, ?_, ?_, fun s uid pid qty add => setCart_snd s uid pid qty add⟩
  · intro s uid pid qty q0 hq
    unfold qtyOf at hq
    cases hf : findCartLine s uid pid with
    | none => rw [hf] at hq; simp at hq
    | some cl =>
      rw [hf] at hq
      simp only [Option.map_some', Option.some.injEq] at hq
      rw [setCart_true_some hf, qtyOf_setCartQty_self]
      unfold qtyOf
      rw [hf, hq]
      rfl
  · intro s uid pid qty q0 hq hpos
    unfold qtyOf at hq
    cases hf : findCartLine s uid pid with
    | none => rw [hf] at hq; simp at hq
    | some cl =>
      rw [setCart_false_some hf, if_pos hpos, qtyOf_setCartQty_self]
      unfold qtyOf
      rw [hf]
      rfl
  · intro s uid pid qty q0 hq hnp
    unfold qtyOf at hq
    cases hf : findCartLine s uid pid with
    | none => rw [hf] at hq; simp at hq
    | some cl =>
      rw [setCart_false_some hf, if_neg (not_lt.mpr hnp)]
      exact qtyOf_removeCartLine_self s uid pid
  · intro s uid pid qty add hq hpos
    unfold qtyOf at hq
    cases hf : findCartLine s uid pid with
    | some cl => rw [hf] at hq; simp at hq
    | none =>
      rw [setCart_none hf, if_pos hpos]
      exact qtyOf_append_new s uid pid qty hf
  · intro s uid pid qty add hq hnp
    unfold qtyOf at hq
    cases hf : findCartLine s uid pid with
    | some cl => rw [hf] at hq; simp at hq
    | none =>
      rw [setCart_none hf, if_neg (not_lt.mpr hnp)]

/-- C5, witnessed: adding 3 to the existing Widget line of quantity 2 gives 5. -/
theorem C5_setCart_witness :
    qtyOf (setCart exSt 7 1 3 true).1 7 1 = some 5 :=
  C5_setCart.1 exSt 7 1 3 2 (by decide)

/-- C6 counterexample: with `first = 0` the source's `if first:` guard is
falsy, so no cap is applied and the full (non-empty) match list is returned —
refuting the claim that `first = 0` yields an empty result. -/
theorem C6_counterexample :
    resolve_products [⟨"a", "k", 1, 0, 1⟩] (some 0) none none none
        = [⟨"a", "k", 1, 0, 1⟩] ∧
    ([⟨"a", "k", 1, 0, 1⟩] : List Product) ≠ [] :=
  ⟨by decide, by decide⟩

/-- C6 (amended): `listProducts` equals one pass filtering by the conjunction
of the case-insensitive name filter and the exact kind filter — each applied
only when its argument is a non-empty string — then dropping `skip` matches
(0 when absent), then capping to `first` only when `first` is given and
non-zero; `first = 0`, like an absent `first`, applies no cap at all. -/
theorem C6_amended :
    (∀ ps first skip search kind,
      resolve_products ps first skip search kind
        = applyFirst first ((ps.filter (productMatches search kind)).drop (skip.getD 0))) ∧
    (∀ ps skip search kind,
      resolve_products ps (some 0) skip search kind
        = (ps.filter (productMatches search kind)).drop (skip.getD 0)) ∧
    (∀ ps (n : Nat) skip search kind, n ≠ 0 →
      resolve_products ps (some n) skip search kind
        = ((ps.filter (productMatches search kind)).drop (skip.getD 0)).take n) := by
  refine ⟨resolve_products_eq, ?_, ?_⟩
  · intro ps skip search kind
    rw [resolve_products_eq]
    unfold applyFirst
    simp
  · intro ps n skip search kind hn
    rw [resolve_products_eq]
    unfold applyFirst
    simp [hn]

/-- C6 amended, witnessed: with two products, `first = 1` and `skip = 1`, the
result is the single-pass match list with one element dropped and one kept. -/
theorem C6_amended_witness :
    resolve_products [⟨"a", "k", 1, 0, 1⟩, ⟨"b", "k", 2, 0, 1⟩] (some 1) (some 1)
        none none
      = ((([⟨"a", "k", 1, 0, 1⟩, ⟨"b", "k", 2, 0, 1⟩] : List Product).filter
          (productMatches none none)).drop ((some 1).getD 0)).take 1 :=
  C6_amended.2.2 [⟨"a", "k", 1, 0, 1⟩, ⟨"b", "k", 2, 0, 1⟩] 1 (some 1) none none
    (by decide)

/-- C7 counterexample: two stock failures against different products (Widget
and Gadget) raise the very same constant message "Stock Error", which contains
neither product's name — the message does not identify the offending product. -/
theorem C7_counterexample :
    (orderProduct exSt 7 1 1 99).2 = Except.error (Err.appError "Stock Error") ∧
    (orderProduct exSt 7 1 2 5).2 = Except.error (Err.appError "Stock Error") ∧
    (lookupProduct exSt 1).map (fun p => p.name) = some "Widget" ∧
    (lookupProduct exSt 2).map (fun p => p.name) = some "Gadget" ∧
    icontains "Stock Error" "Widget" = false ∧
    icontains "Stock Error" "Gadget" = false :=
  ⟨by decide, by decide, by decide, by decide, by decide, by decide⟩

/-- C7 (amended): every error either order mutation can raise is `NotFound` or
the fixed-text "Stock Error" — the stock failure message is a constant that
names no product. -/
theorem C7_amended :
    ∀ s uid aid pid qty e,
      ((orderProduct s uid aid pid qty).2 = Except.error e ∨
        (orderCart s uid aid).2 = Except.error e) →
      e = Err.notFound ∨ e = Err.appError "Stock Error" := by
  intro s uid aid pid qty e h
  rcases h with h | h
  · cases hla : lookupAddress s aid with
    | none =>
      rw [orderProduct_none_addr hla] at h
      have h2 : (Except.error Err.notFound : Except Err Nat) = Except.error e := h
      exact Or.inl (Except.error.inj h2).symm
    | some ad =>
      cases hlp : lookupProduct s pid with
      | none =>
        rw [orderProduct_none_prod hla hlp] at h
        have h2 : (Except.error Err.notFound : Except Err Nat) = Except.error e := h
        exact Or.inl (Except.error.inj h2).symm
      | some p =>
        rcases lt_or_le p.stock qty with hs | hs
        · rw [orderProduct_stockfail hla hlp hs] at h
          have h2 : (Except.error (Err.appError "Stock Error") : Except Err Nat)
              = Except.error e := h
          exact Or.inr (Except.error.inj h2).symm
        · rw [orderProduct_ok hla hlp (not_lt.mpr hs)] at h
          simp at h
  · cases hla : lookupAddress s aid with
    | none =>
      rw [orderCart_none hla] at h
      have h2 : (Except.error Err.notFound : Except Err Nat) = Except.error e := h
      exact Or.inl (Except.error.inj h2).symm
    | some ad =>
      rw [orderCart_some hla] at h
      cases hpc : processCart s.nextOrderId (mkOrder s uid ad)
          (userCart (mkOrder s uid ad) uid) with
      | mk s1 r =>
        simp only [hpc] at h
        cases r with
        | none => simp at h
        | some e2 =>
          have he : e2 = e := by simpa using h
          subst he
          exact processCart_err hpc

/-- C7 amended, witnessed on the Gadget stock failure. -/
theorem C7_amended_witness :
    Err.appError "Stock Error" = Err.notFound ∨
    Err.appError "Stock Error" = Err.appError "Stock Error" :=
  C7_amended exSt 7 1 2 5 (Err.appError "Stock Error") (Or.inl (by decide))

/-- C8: `OrderProduct.mutate` never reads or writes the cart table — the cart
list, and hence every user's every cart-line quantity, is identical before and
after the call, whether it succeeds or fails. -/
theorem C8_cart_untouched :
    ∀ s uid aid pid qty,
      (orderProduct s uid aid pid qty).1.cart = s.cart ∧
      ∀ uid' pid', qtyOf (orderProduct s uid aid pid qty).1 uid' pid'
        = qtyOf s uid' pid' := by
  intro s uid aid pid qty
  refine ⟨orderProduct_fst_cart s uid aid pid qty, ?_⟩
  intro uid' pid'
  unfold qtyOf findCartLine
  rw [orderProduct_fst_cart]

/-- C9 counterexample: from an initial state, `setCart` creates a Widget line
of quantity 2, then `setCart` with `add = true` and delta −5 saves quantity
−3 without deleting the line — a reachable state carries a cart line with a
negative quantity, refuting the claimed positivity invariant. -/
theorem C9_counterexample :
    Reachable badCartState ∧ badCartState.cart = [⟨7, 1, -3⟩] := by
  constructor
  · have h1 : Reachable exInit := Reachable.init goodInit_exInit
    have h2 : Reachable (setCart exInit 7 1 2 false).1 :=
      Reachable.step h1 (Step.setCartStep exInit 7 1 2 false)
    have h3 : Reachable (setCart (setCart exInit 7 1 2 false).1 7 1 (-5) true).1 :=
      Reachable.step h2 (Step.setCartStep _ 7 1 (-5) true)
    have he : (setCart (setCart exInit 7 1 2 false).1 7 1 (-5) true).1
        = badCartState := by decide
    exact he ▸ h3
  · decide

lemma posCart_setCart_none {s : State} {uid : UserId} {pid : ProductId} {qty : Int}
    {add : Bool} (h : PosCart s) (hf : findCartLine s uid pid = none) :
    PosCart (setCart s uid pid qty add).1 := by
  rw [setCart_none hf]
  by_cases hq : qty > 0
  · rw [if_pos hq]
    intro cl hcl
    have hcl' : cl ∈ s.cart ++ [⟨uid, pid, qty⟩] := hcl
    rcases List.mem_append.mp hcl' with h1 | h1
    · exact h cl h1
    · simp only [List.mem_singleton] at h1
      subst h1
      exact hq
  · rw [if_neg hq]
    exact h

/-- C9 (amended): cart-line quantities stay positive under every operation
except `setCart` with `add = true` on an existing line: `add = false` calls,
calls on an absent line, order placement (which only deletes lines) and
appointment booking all preserve positivity; only the unguarded
`qty += delta` of the `add = true` branch can persist a non-positive
quantity. -/
theorem C9_amended :
    (∀ s uid pid qty, PosCart s → PosCart (setCart s uid pid qty false).1) ∧
    (∀ s uid pid qty add, PosCart s → findCartLine s uid pid = none →
      PosCart (setCart s uid pid qty add).1) ∧
    (∀ s uid aid, PosCart s → PosCart (orderCart s uid aid).1) ∧
    (∀ s uid aid pid qty, PosCart s → PosCart (orderProduct s uid aid pid qty).1) ∧
    (∀ s uid ts, PosCart s → PosCart (bookAppointment s uid ts).1) := by
  refine ⟨?_, fun s uid pid qty add h hf => posCart_setCart_none h hf,
    fun s uid aid h => posCart_orderCart uid aid h,
    fun s uid aid pid qty h => posCart_orderProduct uid aid pid qty h,
    fun s uid ts h => posCart_book uid ts h⟩
  intro s uid pid qty h
  cases hf : findCartLine s uid pid with
  | some cl =>
    rw [setCart_false_some hf]
    by_cases hq : qty > 0
    · rw [if_pos hq]
      exact posCart_setCartQty h hq
    · rw [if_neg hq]
      exact posCart_removeCartLine h
  | none => exact posCart_setCart_none h hf

/-- C9 amended, witnessed: an `add = true` call on an absent line with a
negative quantity is a no-op and keeps the (empty) cart positive. -/
theorem C9_amended_witness :
    PosCart (setCart exInit 7 9 (-1) true).1 :=
  C9_amended.2.1 exInit 7 9 (-1) true
    (fun cl hcl => absurd hcl (List.not_mem_nil cl)) (by decide)

/-- C10: `bookedDates` returns exactly the timestamps of appointments strictly
later than the given current time; and an appointment sharing the requested
calendar date still triggers `SlotTakenError` even when its timestamp is not
later than now and is therefore omitted from `bookedDates`. -/
theorem C10_bookedDates :
    (∀ s now t, t ∈ bookedDates s now ↔
      ∃ a ∈ s.appointments, a.timestamp = t ∧ dtLt now t) ∧
    (∀ s now uid ts (a : Appointment), a ∈ s.appointments →
      a.timestamp.date = ts.date →
      (bookAppointment s uid ts).2
          = Except.error (Err.appError "No slot on that day!") ∧
      (¬ dtLt now a.timestamp → a.timestamp ∉ bookedDates s now)) := by
  constructor
  · intro s now t
    unfold bookedDates
    simp only [List.mem_map, List.mem_filter, decide_eq_true_eq]
    constructor
    · rintro ⟨a, ⟨ha, hlt⟩, heq⟩
      exact ⟨a, ha, heq, heq ▸ hlt⟩
    · rintro ⟨a, ha, heq, hlt⟩
      exact ⟨a, ⟨ha, by rw [heq]; exact hlt⟩, heq⟩
  · intro s now uid ts a ha hd
    constructor
    · rw [bookAppointment_conflict ha hd]
    · intro hn hmem
      unfold bookedDates at hmem
      simp only [List.mem_map, List.mem_filter, decide_eq_true_eq] at hmem
      obtain ⟨a', ⟨ha', hlt⟩, heq⟩ := hmem
      apply hn
      rw [← heq]
      exact hlt

/-- C10, witnessed: an appointment earlier today (day 10, time 5, with now at
time 6) is omitted from `bookedDates` yet still blocks a new day-10 booking. -/
theorem C10_bookedDates_witness :
    (bookAppointment exApSt 1 ⟨10, 20⟩).2
        = Except.error (Err.appError "No slot on that day!") ∧
    (⟨10, 5⟩ : DateTime) ∉ bookedDates exApSt ⟨10, 6⟩ := by
  have h := C10_bookedDates.2 exApSt ⟨10, 6⟩ 1 ⟨10, 20⟩ ⟨9, ⟨10, 5⟩⟩
    (by decide) (by decide)
  exact ⟨h.1, h.2 (by decide)⟩
